import Mathlib

/-!
Verification of the query-understanding and data-relevance pipeline of the
ai_chatbot_politiktok repository (backend/app.py, backend/visualization.py,
backend/data_loader.py).

Conventions of the shallow embedding:
* Python strings are Lean `String`s; most character-level work is done on
  `List Char`.
* `str.lower()` is modelled by `pyLower`, which lowercases ASCII letters and
  the Spanish accented capitals used by this code base (the repository's data
  and queries are Spanish text over this alphabet).
* `str.strip()` is modelled by `pyStrip` (dropping the ASCII whitespace
  characters Python strips).
* `a in b` (substring test) is modelled by `strContains`.
* pandas DataFrames are modelled by `Table`: a list of column names plus a
  list of rows, a row being an association list from column name to the
  string rendering of the cell (`astype(str)`); a missing cell (NaN) is an
  absent key, and reading it through `astype(str)` yields the string "nan",
  which is what `cellStr` produces.
* The regular expressions used by the extraction code are all of one
  restricted shape (literal words separated by `\s+`, an optional or
  mandatory Spanish-article group, and one trailing capture group of letter
  characters or of a quoted body).  They are embedded by the small matcher
  below (`matchToks` / `findAllCaps`), which reproduces Python's ordered
  alternation, greedy repetition and left-to-right non-overlapping
  `re.findall` scan for patterns of exactly that shape.
-/

/-- The apostrophe character, written via its code point. -/
def quoteCh : Char := Char.ofNat 39

/-- The apostrophe as a one-character string. -/
def quoteStr : String := String.singleton quoteCh

/-- Python `str.lower()` on one character, restricted to the alphabet this
code base uses (ASCII plus the Spanish accented capitals). -/
def pyLowerChar (c : Char) : Char :=
  if 'A' ≤ c ∧ c ≤ 'Z' then Char.ofNat (c.toNat + 32)
  else if c = 'Á' then 'á'
  else if c = 'É' then 'é'
  else if c = 'Í' then 'í'
  else if c = 'Ó' then 'ó'
  else if c = 'Ú' then 'ú'
  else if c = 'Ñ' then 'ñ'
  else if c = 'Ü' then 'ü'
  else c

/-- Python `str.lower()` on a string. -/
def pyLower (s : String) : String := (s.toList.map pyLowerChar).asString

/-- The whitespace characters stripped by Python `str.strip()` and matched
by `\s` (ASCII portion). -/
def isPySpace (c : Char) : Bool :=
  c = ' ' || c = '\t' || c = '\n' || c = '\r' || c = Char.ofNat 11 || c = Char.ofNat 12

/-- Python `str.strip()` on a character list. -/
def pyStrip (l : List Char) : List Char :=
  ((l.dropWhile isPySpace).reverse.dropWhile isPySpace).reverse

/-- Python `str.strip()` on a string. -/
def pyStripS (s : String) : String := (pyStrip s.toList).asString

/-- The characters of the regex class `[a-záéíóúñüA-ZÁÉÍÓÚÑÜ]` used by the
extraction patterns. -/
def spLetters : List Char :=
  "abcdefghijklmnopqrstuvwxyzáéíóúñüABCDEFGHIJKLMNOPQRSTUVWXYZÁÉÍÓÚÑÜ".toList

/-- Membership in the extraction patterns' letter class. -/
def isSpLetter (c : Char) : Bool := spLetters.contains c

/-- The characters of the lowercase-only class `[a-záéíóúñü]`. -/
def lowSpLetters : List Char := "abcdefghijklmnopqrstuvwxyzáéíóúñü".toList

/-- Membership in the lowercase-only letter class. -/
def isLowSpLetter (c : Char) : Bool := lowSpLetters.contains c

/-- Python's `\w` (word character), restricted to the alphabet of this code
base: ASCII alphanumerics, underscore, and the Spanish accented letters. -/
def isWordChar (c : Char) : Bool :=
  c.isAlphanum || c = '_' || "áéíóúñüÁÉÍÓÚÑÜ".toList.contains c

/-- Does `pat` occur as a prefix of `l`? -/
def listStarts : List Char → List Char → Bool
  | _, [] => true
  | [], _ :: _ => false
  | c :: cs, p :: ps => c = p && listStarts cs ps

/-- Does `pat` occur as a contiguous sublist of `l`?  (Python `pat in s`.) -/
def listHas : List Char → List Char → Bool
  | [], pat => pat.isEmpty
  | c :: cs, pat => listStarts (c :: cs) pat || listHas cs pat

/-- Python substring test `pat in hay` on strings. -/
def strContains (hay pat : String) : Bool := listHas hay.toList pat.toList

/-- Python `hay.startswith(pat)` on strings. -/
def strStarts (hay pat : String) : Bool := listStarts hay.toList pat.toList

/-- Splits a character list into its maximal runs of characters satisfying
`p`, left to right (`acc` holds the current run, reversed). -/
def splitRunsGo (p : Char → Bool) : List Char → List Char → List (List Char)
  | acc, [] => if acc.isEmpty then [] else [acc.reverse]
  | acc, c :: cs =>
    if p c then splitRunsGo p (c :: acc) cs
    else if acc.isEmpty then splitRunsGo p [] cs
    else acc.reverse :: splitRunsGo p [] cs

/-- The maximal runs of characters satisfying `p` in `cs`. -/
def splitRuns (p : Char → Bool) (cs : List Char) : List (List Char) :=
  splitRunsGo p [] cs

/-- The maximal word-character runs of a string (the string's tokens). -/
def wordRuns (s : String) : List String :=
  (splitRuns isWordChar s.toList).map List.asString

/-- `re.findall(r'\b([a-záéíóúñüA-ZÁÉÍÓÚÑÜ]+)\b', s)`: the maximal
word-character runs that consist entirely of letters of the class.  (A `\b`
boundary exists exactly at the edges of a maximal `\w` run, so a match is a
full `\w` run all of whose characters are in the class.) -/
def wordTokens (s : String) : List String :=
  (splitRuns isWordChar s.toList).filterMap
    (fun run => if run.all isSpLetter then some run.asString else none)

/-- `re.findall(r'\b([a-záéíóúñü]{4,})\b', s)`: maximal word-character runs
of lowercase letters, of length at least 4. -/
def lowerTokens4 (s : String) : List String :=
  (splitRuns isWordChar s.toList).filterMap
    (fun run =>
      if run.all isLowSpLetter && decide (4 ≤ run.length) then some run.asString
      else none)

/-! ### A matcher for the restricted regex shape used by the extractors -/

/-- One element of an extraction pattern:
* `lit s` — the literal characters of `s`;
* `ws` — `\s+`;
* `art req` — the group `(?:la\s+|el\s+|una\s+|un\s+)` (mandatory when
  `req = true`, the trailing-`?` optional form when `req = false`);
* `cap m` — a trailing capture `([a-záéíóúñüA-ZÁÉÍÓÚÑÜ]+)` (with `{m,}` in
  place of `+` when `m > 1`);
* `cap m` with `m = 0` is not used;
* `capUntil c` — a trailing capture `([^c]+)c` (quoted-body capture,
  including its closing delimiter);
* `capUser` — the trailing capture `([a-zA-Z0-9_\.]+)` of the username
  pattern. -/
inductive PatTok where
  | lit (s : String)
  | ws
  | art (req : Bool)
  | cap (minLen : Nat)
  | capUntil (c : Char)
  | capUser
deriving DecidableEq

/-- The character class `[a-zA-Z0-9_\.]` of the username pattern. -/
def isUserChar (c : Char) : Bool := c.isAlphanum || c = '_' || c = '.'

/-- Consume the literal characters `p` from the front of `cs`. -/
def dropLit : List Char → List Char → Option (List Char)
  | [], cs => some cs
  | _ :: _, [] => none
  | p :: ps, c :: cs => if c = p then dropLit ps cs else none

/-- Consume an article alternative `a` followed by `\s+`. -/
def artAfter (a : String) (cs : List Char) : Option (List Char) :=
  match dropLit a.toList cs with
  | some cs1 =>
    match cs1.span isPySpace with
    | (sp, rest) => if sp.isEmpty then none else some rest
  | none => none

/-- First `some` in a list of options (ordered regex alternation). -/
def firstSome : List (Option α) → Option α
  | [] => none
  | some a :: _ => some a
  | none :: rest => firstSome rest

/-- Match a pattern (a list of `PatTok` ending in a capture) at the front of
`cs`; on success return the captured characters and the remaining input. -/
def matchToks : List PatTok → List Char → Option (List Char × List Char)
  | [], _ => none
  | PatTok.lit s :: ts, cs =>
    match dropLit s.toList cs with
    | some cs1 => matchToks ts cs1
    | none => none
  | PatTok.ws :: ts, cs =>
    match cs.span isPySpace with
    | (sp, rest) => if sp.isEmpty then none else matchToks ts rest
  | PatTok.art req :: ts, cs =>
    firstSome
      [ match artAfter "la" cs with
        | some r => matchToks ts r
        | none => none,
        match artAfter "el" cs with
        | some r => matchToks ts r
        | none => none,
        match artAfter "una" cs with
        | some r => matchToks ts r
        | none => none,
        match artAfter "un" cs with
        | some r => matchToks ts r
        | none => none,
        if req then none else matchToks ts cs ]
  | PatTok.cap m :: _, cs =>
    match cs.span isSpLetter with
    | (run, rest) => if max m 1 ≤ run.length then some (run, rest) else none
  | PatTok.capUntil c :: _, cs =>
    match cs.span (fun x => x ≠ c) with
    | (body, rest) =>
      match rest with
      | _ :: rest2 => if body.isEmpty then none else some (body, rest2)
      | [] => none
  | PatTok.capUser :: _, cs =>
    match cs.span isUserChar with
    | (run, rest) => if run.isEmpty then none else some (run, rest)

/-- The left-to-right, non-overlapping `re.findall` scan for a pattern with
one capture group: the list of captures, in order of occurrence.  `fuel`
bounds the recursion; `cs.length + 1` is always sufficient because every
successful match consumes at least one character. -/
def findAllCapsAux (pat : List PatTok) : Nat → List Char → List (List Char)
  | 0, _ => []
  | fuel + 1, cs =>
    match matchToks pat cs with
    | some (w, rest) => w :: findAllCapsAux pat fuel rest
    | none =>
      match cs with
      | [] => []
      | _ :: cs2 => findAllCapsAux pat fuel cs2

/-- All captures of `pat` in `cs` (Python `re.findall`). -/
def findAllCaps (pat : List PatTok) (cs : List Char) : List (List Char) :=
  findAllCapsAux pat (cs.length + 1) cs

/-- All captures of `pat` in a string, as strings. -/
def findAllCapsS (pat : List PatTok) (s : String) : List String :=
  (findAllCaps pat s.toList).map List.asString

/-! ### backend/app.py — extract_word_with_regex_fallback -/

/-- The 11 contextual patterns of `extract_word_with_regex_fallback`
(app.py, `patterns`), in order. -/
def ewrfPatterns : List (List PatTok) :=
  [ [PatTok.lit "palabra", PatTok.ws, PatTok.art false, PatTok.cap 1],
    [PatTok.lit "sobre", PatTok.ws, PatTok.lit "la", PatTok.ws,
     PatTok.lit "palabra", PatTok.ws, PatTok.cap 1],
    [PatTok.lit "datos", PatTok.ws, PatTok.lit "relevantes", PatTok.ws,
     PatTok.lit "sobre", PatTok.ws, PatTok.lit "la", PatTok.ws,
     PatTok.lit "palabra", PatTok.ws, PatTok.cap 1],
    [PatTok.lit "relevantes", PatTok.ws, PatTok.lit "sobre", PatTok.ws,
     PatTok.lit "la", PatTok.ws, PatTok.lit "palabra", PatTok.ws, PatTok.cap 1],
    [PatTok.lit "sobre", PatTok.ws, PatTok.art false, PatTok.cap 1],
    [PatTok.lit "datos", PatTok.ws, PatTok.lit "sobre", PatTok.ws,
     PatTok.art false, PatTok.cap 1],
    [PatTok.lit "información", PatTok.ws, PatTok.lit "sobre", PatTok.ws,
     PatTok.art false, PatTok.cap 1],
    [PatTok.lit "datos", PatTok.ws, PatTok.lit "de", PatTok.ws,
     PatTok.art false, PatTok.cap 1],
    [PatTok.lit "información", PatTok.ws, PatTok.lit "de", PatTok.ws,
     PatTok.art false, PatTok.cap 1],
    [PatTok.lit "análisis", PatTok.ws, PatTok.lit "de", PatTok.ws,
     PatTok.art false, PatTok.cap 1],
    [PatTok.art true, PatTok.cap 4] ]

/-- `spanish_meaningless_words` of `extract_word_with_regex_fallback`
(app.py): the hardcoded stopword blacklist.  The Python value is a set;
only membership is ever used, so it is kept as the literal list (duplicate
literals included). -/
def spanishMeaninglessWords : List String :=
  [ "la", "el", "una", "un", "las", "los", "unas", "unos",
    "de", "del", "en", "con", "por", "para", "sin", "sobre", "bajo", "ante", "tras",
    "desde", "hasta", "hacia", "contra", "entre", "mediante", "durante", "según",
    "y", "o", "u", "e", "ni", "pero", "mas", "sino", "aunque", "porque", "pues",
    "que", "si", "como", "cuando", "donde", "mientras", "entonces",
    "yo", "tú", "él", "ella", "nosotros", "vosotros", "ellos", "ellas",
    "me", "te", "se", "nos", "os", "le", "les", "lo", "los", "la", "las",
    "mi", "tu", "su", "nuestro", "vuestro", "suyo", "mío", "tuyo",
    "este", "esta", "estos", "estas", "ese", "esa", "esos", "esas",
    "aquel", "aquella", "aquellos", "aquellas", "esto", "eso", "aquello",
    "muy", "más", "menos", "mucho", "poco", "bastante", "demasiado", "tan", "tanto",
    "sí", "no", "también", "tampoco", "además", "incluso", "solo", "solamente",
    "bien", "mal", "mejor", "peor", "así", "aquí", "ahí", "allí", "acá", "allá",
    "hoy", "ayer", "mañana", "ahora", "luego", "después", "antes", "siempre", "nunca",
    "ser", "estar", "tener", "haber", "hacer", "ir", "venir", "dar", "ver", "saber",
    "poder", "querer", "decir", "poner", "salir", "llegar", "pasar", "quedar",
    "es", "son", "está", "están", "tiene", "tienen", "hay", "había", "habrá",
    "hace", "hacen", "va", "van", "viene", "vienen", "da", "dan", "ve", "ven",
    "qué", "quién", "quiénes", "cuál", "cuáles", "cómo", "cuándo", "dónde", "por qué",
    "cuánto", "cuántos", "cuánta", "cuántas",
    "hola", "dime", "datos", "información", "relevantes", "palabra", "palabras",
    "término", "términos", "análisis", "general", "específico", "particular",
    "cosa", "cosas", "algo", "nada", "todo", "todos", "todas", "otro", "otra",
    "otros", "otras",
    "mismo", "misma", "mismos", "mismas", "tal", "tales", "cada", "cualquier",
    "cualquiera",
    "dame", "muestra", "muéstrame", "genera", "generar", "crear", "hacer", "hacen",
    "obtener", "conseguir", "buscar", "encontrar", "mostrar", "enseñar", "explicar",
    "gráfico", "gráficos", "grafico", "graficos", "chart", "charts", "visualización",
    "visualizaciones", "diagrama", "diagramas", "tabla", "tablas", "resumen", "resúmen",
    "uno", "dos", "tres", "cuatro", "cinco", "seis", "siete", "ocho", "nueve", "diez",
    "primero", "segundo", "tercero", "último", "varios", "algunas", "algunos",
    "muchas", "muchos",
    "día", "días", "semana", "semanas", "mes", "meses", "año", "años", "tiempo",
    "vez", "veces",
    "grande", "pequeño", "mayor", "menor", "alto", "bajo", "largo", "corto",
    "nuevo", "viejo" ]

/-- `important_terms` of `extract_word_with_regex_fallback` (app.py): the
curated political/social vocabulary checked with priority. -/
def importantTermsEWRF : List String :=
  [ "revolución", "democracia", "justicia", "libertad", "igualdad", "política",
    "gobierno",
    "corrupción", "protesta", "manifestación", "derecho", "derechos", "social",
    "económico",
    "economía", "educación", "salud", "trabajo", "empleo", "pobreza", "riqueza",
    "clase",
    "feminismo", "machismo", "género", "violencia", "paz", "guerra", "conflicto",
    "crisis",
    "cambio", "reforma", "transformación", "progreso", "conservador", "liberal",
    "izquierda",
    "derecha", "centro", "partido", "elecciones", "voto", "candidato", "presidente",
    "congreso",
    "senado", "diputado", "alcalde", "gobernador", "constitución", "ley", "norma",
    "decreto",
    "revolucion", "democracia", "politica", "educacion", "economia" ]

/-- Python `str.isdigit()` (ASCII digits suffice for this code base). -/
def isDigitStr (s : String) : Bool := !s.isEmpty && s.toList.all Char.isDigit

/-- The validity test applied to a stripped capture in STEP 2 of
`extract_word_with_regex_fallback`:
`if word and word not in spanish_meaningless_words and len(word) > 3`. -/
def validCapture (w : String) : Bool :=
  !w.isEmpty && !spanishMeaninglessWords.contains w && decide (3 < w.length)

/-- STEP 2 of `extract_word_with_regex_fallback`: try each contextual
pattern in order and return the first stripped capture that passes
`validCapture`. -/
def firstValidCapture : List (List PatTok) → String → Option String
  | [], _ => none
  | p :: ps, ql =>
    match ((findAllCaps p ql.toList).map (fun w => (pyStrip w).asString)).find?
        validCapture with
    | some w => some w
    | none => firstValidCapture ps ql

/-- `extract_word_with_regex_fallback` (app.py): lowercase the query,
scan its tokens for a curated political/social term (STEP 1), then try the
contextual regex patterns (STEP 2), then return the first meaningful token
(STEP 3), and otherwise `None`. -/
def extract_word_with_regex_fallback (query : String) : Option String :=
  let ql := pyLower query
  let words_in_query := wordTokens ql
  match words_in_query.find? (fun w => importantTermsEWRF.contains w) with
  | some w => some w
  | none =>
    match firstValidCapture ewrfPatterns ql with
    | some w => some w
    | none =>
      words_in_query.find? (fun w =>
        !spanishMeaninglessWords.contains w && decide (3 < w.length) && !isDigitStr w)

/-- `extract_word_with_ai_parsing` (app.py) just delegates to the regex
fallback. -/
def extract_word_with_ai_parsing (query : String) : Option String :=
  extract_word_with_regex_fallback query

/-! ### backend/app.py — extract_key_terms_from_query -/

/-- The result dictionary built by `extract_key_terms_from_query`
(app.py): target words, usernames, entities and intent.  The Python code
wraps `target_words` and `usernames` in `list(set(...))`, whose iteration
order is unspecified; downstream code relies only on emptiness and on
membership, so the embedding keeps the first occurrence of each element
(`List.eraseDups`). -/
structure Extracted where
  target_words : List String
  usernames : List String
  entities : List String
  intent : String
deriving DecidableEq

/-- The inline safety blacklist of `extract_key_terms_from_query`
(app.py, `spanish_meaningless_words` local to that function). -/
def safetyMeaninglessWords : List String :=
  [ "la", "el", "una", "un", "las", "los", "de", "del", "en", "con", "por",
    "para", "sin", "sobre",
    "y", "o", "que", "si", "como", "cuando", "donde", "muy", "más", "menos",
    "mucho", "poco",
    "ser", "estar", "tener", "haber", "hacer", "ir", "es", "son", "está",
    "están", "tiene", "hay",
    "hola", "dime", "datos", "información", "relevantes", "palabra", "palabras",
    "gráfico", "gráficos",
    "uno", "dos", "tres", "tiempo", "día", "días", "año", "años", "grande",
    "pequeño", "nuevo", "viejo" ]

/-- The double-quote character. -/
def dqCh : Char := '"'

/-- `word_patterns` of `extract_key_terms_from_query` (app.py), in order. -/
def ektWordPatterns : List (List PatTok) :=
  [ [PatTok.lit "palabra", PatTok.ws, PatTok.lit "\"", PatTok.capUntil dqCh],
    [PatTok.lit "palabra", PatTok.ws, PatTok.lit quoteStr, PatTok.capUntil quoteCh],
    [PatTok.lit "palabra", PatTok.ws, PatTok.cap 1],
    [PatTok.lit "término", PatTok.ws, PatTok.lit "\"", PatTok.capUntil dqCh],
    [PatTok.lit "término", PatTok.ws, PatTok.lit quoteStr, PatTok.capUntil quoteCh],
    [PatTok.lit "término", PatTok.ws, PatTok.cap 1],
    [PatTok.lit "sobre", PatTok.ws, PatTok.lit "la", PatTok.ws,
     PatTok.lit "palabra", PatTok.ws, PatTok.cap 1],
    [PatTok.lit "sobre", PatTok.ws, PatTok.lit "\"", PatTok.capUntil dqCh],
    [PatTok.lit "sobre", PatTok.ws, PatTok.lit quoteStr, PatTok.capUntil quoteCh],
    [PatTok.lit "sobre", PatTok.ws, PatTok.cap 1],
    [PatTok.lit "de", PatTok.ws, PatTok.lit "la", PatTok.ws,
     PatTok.lit "palabra", PatTok.ws, PatTok.cap 1],
    [PatTok.lit "de", PatTok.ws, PatTok.lit "\"", PatTok.capUntil dqCh],
    [PatTok.lit "de", PatTok.ws, PatTok.lit quoteStr, PatTok.capUntil quoteCh],
    [PatTok.lit "análisis", PatTok.ws, PatTok.lit "de", PatTok.ws, PatTok.cap 1],
    [PatTok.lit "datos", PatTok.ws, PatTok.lit "de", PatTok.ws, PatTok.cap 1],
    [PatTok.lit "información", PatTok.ws, PatTok.lit "de", PatTok.ws, PatTok.cap 1],
    [PatTok.lit "datos", PatTok.ws, PatTok.lit "relevantes", PatTok.ws,
     PatTok.lit "sobre", PatTok.ws, PatTok.lit "la", PatTok.ws,
     PatTok.lit "palabra", PatTok.ws, PatTok.cap 1],
    [PatTok.lit "relevantes", PatTok.ws, PatTok.lit "sobre", PatTok.ws,
     PatTok.lit "la", PatTok.ws, PatTok.lit "palabra", PatTok.ws, PatTok.cap 1] ]

/-- The username pattern `r'@([a-zA-Z0-9_\.]+)'` (app.py). -/
def usernamePat : List PatTok := [PatTok.lit "@", PatTok.capUser]

/-- The quoted patterns `r'"([^"]+)"'` and `r"'([^']+)'"` (app.py). -/
def quotedDoublePat : List PatTok := [PatTok.lit "\"", PatTok.capUntil dqCh]

/-- The single-quoted variant of the quoted pattern. -/
def quotedSinglePat : List PatTok := [PatTok.lit quoteStr, PatTok.capUntil quoteCh]

/-- `important_terms` of `extract_key_terms_from_query` (app.py). -/
def ektImportantTerms : List String :=
  [ "revolución", "revolucion", "democracia", "justicia", "libertad", "igualdad",
    "política", "politica", "gobierno",
    "corrupción", "corrupcion", "protesta", "manifestación", "manifestacion",
    "derecho", "derechos", "social", "económico", "economico",
    "educación", "educacion", "salud", "trabajo", "empleo", "crisis", "reforma",
    "cambio", "progreso",
    "conservador", "liberal", "izquierda", "derecha", "centro", "feminismo",
    "machismo",
    "violencia", "paz", "guerra", "conflicto", "unión", "union", "diversidad",
    "inclusión", "inclusion",
    "presidente", "congreso", "senado", "diputado", "diputados", "senador",
    "senadores",
    "elección", "eleccion", "elecciones", "voto", "votos", "campaña", "campana",
    "candidato", "candidatos",
    "partido", "partidos", "oposición", "oposicion", "oficialismo", "coalición",
    "coalicion" ]

/-- `extract_key_terms_from_query` (app.py): collect target words from the
smart extraction (with the safety blacklist), the contextual word patterns,
the hardcoded direct checks for "revolución"/"democracia", the quoted
phrases, and the standalone important-term scan; collect usernames from the
`@handle` pattern. -/
def extract_key_terms_from_query (query : String) : Extracted :=
  let ql := pyLower query
  let smart := extract_word_with_ai_parsing query
  let tw1 : List String :=
    match smart with
    | some w => if safetyMeaninglessWords.contains (pyLower w) then [] else [w]
    | none => []
  let tw2 := tw1 ++ (ektWordPatterns.map (fun p => findAllCapsS p ql)).flatten
  let tw3 := tw2
    ++ (if strContains ql "revolución" then ["revolución"] else [])
    ++ (if strContains ql "democracia" then ["democracia"] else [])
  let usernames1 := findAllCapsS usernamePat query
  let tw4 := tw3 ++ findAllCapsS quotedDoublePat query
    ++ findAllCapsS quotedSinglePat query
  let tw5 := tw4 ++ (lowerTokens4 ql).filter (fun w => ektImportantTerms.contains w)
  { target_words := ((tw5.map pyStripS).filter (fun w => !w.isEmpty)).eraseDups
    usernames := ((usernames1.map pyStripS).filter (fun u => !u.isEmpty)).eraseDups
    entities := []
    intent := "general" }

/-! ### backend/app.py — analyze_query_for_visualization_type -/

/-- `time_keywords` (app.py, analyze_query_for_visualization_type). -/
def time_keywords : List String :=
  [ "tiempo", "temporal", "evolución", "evoluciona", "cambio", "cambios",
    "tendencia", "tendencias",
    "histórico", "historia", "cronología", "desarrollo", "progreso", "antes",
    "después",
    "periodo", "fecha", "fechas", "año", "años", "mes", "meses", "día", "días",
    "durante", "a lo largo", "timeline", "serie temporal", "línea de tiempo" ]

/-- `comparison_keywords` (app.py). -/
def comparison_keywords : List String :=
  [ "comparar", "comparación", "comparativa", "versus", "vs", "diferencia",
    "diferencias",
    "contraste", "entre", "mejor", "peor", "mayor", "menor", "más", "menos",
    "ranking", "top", "clasificación", "competencia", "frente a", "contra" ]

/-- `sentiment_keywords` (app.py). -/
def sentiment_keywords : List String :=
  [ "sentimiento", "sentimientos", "opinión", "opiniones", "percepción",
    "percepções",
    "positivo", "negativo", "neutral", "emocional", "emoción", "emociones",
    "satisfacción", "insatisfacción", "feliz", "triste", "enojado", "contento",
    "análisis de sentimiento", "polaridad", "actitud", "reacción", "reacciones" ]

/-- `summary_keywords` (app.py). -/
def summary_keywords : List String :=
  [ "resumen", "resúmen", "general", "panorama", "overview", "visión general",
    "total", "totales", "estadísticas", "estadística", "números", "cifras",
    "datos generales", "información general", "cuántos", "cuántas", "cantidad",
    "distribución", "proporción", "porcentaje", "estadísticas generales",
    "gráficos" ]

/-- `individual_keywords` (app.py). -/
def individual_keywords : List String :=
  [ "individual", "uno", "una", "gráfico", "chart", "simple", "específico",
    "enfocado",
    "solo", "solamente", "únicamente", "particular", "concreto", "puntual" ]

/-- `user_keywords` (app.py). -/
def user_keywords : List String :=
  [ "usuario", "usuarios", "creador", "creadores", "cuenta", "cuentas",
    "perfil", "perfiles", "@", "influencer", "influencers", "tiktoker",
    "tiktokers" ]

/-- `word_keywords` (app.py). -/
def word_keywords : List String :=
  [ "palabra", "palabras", "término", "términos", "vocabulario", "léxico",
    "expresión", "expresiones", "frase", "frases", "texto", "textos" ]

/-- The explicit substring overrides forcing `time_series` (app.py). -/
def timeOverridePatterns : List String :=
  ["evolución de", "cambio en", "a lo largo del tiempo", "serie temporal"]

/-- The explicit substring overrides forcing `comparison` (app.py). -/
def comparisonOverridePatterns : List String :=
  ["comparar", "vs", "versus", "diferencia entre", "mejor que"]

/-- The explicit substring overrides forcing `sentiment` (app.py). -/
def sentimentOverridePatterns : List String :=
  ["sentimiento", "análisis de sentimiento", "opinión"]

/-- The explicit substring overrides forcing `focused_chart` (app.py). -/
def focusedOverridePatterns : List String :=
  ["uno individual", "gráfico individual", "chart individual", "uno solo"]

/-- `sum(1 for keyword in kws if keyword in ql)`. -/
def countKw (ql : String) (kws : List String) : Nat :=
  (kws.filter (fun k => strContains ql k)).length

/-- Python `max(scores.items(), key=lambda x: x[1])`: the first pair with
the maximal value (later pairs replace the current best only when strictly
greater). -/
def maxByVal : List (String × ℚ) → String × ℚ
  | [] => ("summary", 0)
  | p :: ps => ps.foldl (fun acc x => if acc.2 < x.2 then x else acc) p

/-- The five-category score table of `analyze_query_for_visualization_type`
(app.py): keyword counts per category plus the extracted-term and username
bonuses, in the dict's insertion order.  Python's float weights `0.3` and
`0.5` are modelled as the exact rationals `3/10` and `1/2`; the code only
compares these scores with each other and with the integer thresholds `0`
and `2`, where the rounding of `0.3` is not observable. -/
def vizTypeScores (query : String) : List (String × ℚ) :=
  let ql := pyLower query
  let ex := extract_key_terms_from_query query
  let time_score : Nat := countKw ql time_keywords
  let comparison_score0 : Nat := countKw ql comparison_keywords
  let sentiment_score0 : Nat := countKw ql sentiment_keywords
  let summary_score0 : Nat := countKw ql summary_keywords
  let individual_score : Nat := countKw ql individual_keywords
  let user_score0 : Nat := countKw ql user_keywords
  let word_score0 : Nat := countKw ql word_keywords
  let word_score : Nat := word_score0 + (if ex.target_words.isEmpty then 0 else 2)
  let sentimentHit : Bool := sentiment_keywords.any (fun k => strContains ql k)
  let sentiment_score : Nat := sentiment_score0 +
    (if !ex.target_words.isEmpty && sentimentHit then 3 else 0)
  let summary_score : Nat := summary_score0 +
    (if !ex.target_words.isEmpty && !sentimentHit then 2 else 0)
  let user_score : Nat := user_score0 + (if ex.usernames.isEmpty then 0 else 3)
  let comparison_score : Nat :=
    comparison_score0 + (if ex.usernames.isEmpty then 0 else 2)
  [ ("time_series", (time_score : ℚ)),
    ("comparison", ((comparison_score + user_score : Nat) : ℚ)),
    ("sentiment", (sentiment_score : ℚ) + (word_score : ℚ) * (3 / 10 : ℚ)),
    ("summary", (summary_score : ℚ) + (word_score : ℚ) * (1 / 2 : ℚ)),
    ("focused_chart", ((individual_score * 2 : Nat) : ℚ)) ]

/-- `analyze_query_for_visualization_type` (app.py): returns
`(viz_type, extracted, smart_query)`. -/
def analyze_query_for_visualization_type (query : String)
    (requested_type : Option String) : String × Extracted × Option String :=
  match requested_type with
  | some rt =>
    let ex := extract_key_terms_from_query query
    let smartQ : String :=
      match ex.target_words with
      | w :: _ => w
      | [] => query
    (rt, ex, some smartQ)
  | none =>
    let ql := pyLower query
    let ex := extract_key_terms_from_query query
    let viz_type : String :=
      if timeOverridePatterns.any (fun p => strContains ql p) then "time_series"
      else if comparisonOverridePatterns.any (fun p => strContains ql p) then
        "comparison"
      else if sentimentOverridePatterns.any (fun p => strContains ql p) then
        "sentiment"
      else if focusedOverridePatterns.any (fun p => strContains ql p) then
        "focused_chart"
      else
        let best := maxByVal (vizTypeScores query)
        if best.2 = 0 ∨ best.2 < 2 then "summary" else best.1
    let smartQ : Option String :=
      match ex.target_words with
      | w :: _ => some w
      | [] =>
        match ex.usernames with
        | u :: _ => some u
        | [] => extract_word_with_regex_fallback query
    (viz_type, ex, smartQ)

/-! ### backend/visualization.py — data model and filter_data_by_query -/

/-- A DataFrame row: an association list from column name to the string
rendering of the cell.  A NaN cell is an absent key. -/
abbrev Row := List (String × String)

/-- A DataFrame: its column names and its rows. -/
structure Table where
  cols : List String
  rows : List Row
deriving DecidableEq

/-- The dataset dictionary handled by `filter_data_by_query`: the four
contractual keys, each possibly absent.  (`filter_data_by_query` reads and
writes only these four keys; any other key of the Python dict is inert
except under the no-match fallback, which returns the input dict itself.) -/
structure DataCollection where
  accounts : Option Table
  videos : Option Table
  words : Option Table
  subtitles : Option Table
deriving DecidableEq

/-- The value of a cell, if present (not NaN). -/
def cellVal (r : Row) (c : String) : Option String :=
  (r.find? (fun p => p.1 == c)).map (fun p => p.2)

/-- The value of a cell after `astype(str)`: NaN renders as "nan". -/
def cellStr (r : Row) (c : String) : String := (cellVal r c).getD "nan"

/-- The boolean row mask of the per-dataset direct filter: for each
designated searchable column present in the table, test
`astype(str).str.lower().str.contains(query_lower)`. -/
def maskHit (tcols searchCols : List String) (ql : String) (r : Row) : Bool :=
  searchCols.any (fun c => tcols.contains c && strContains (pyLower (cellStr r c)) ql)

/-- Searchable columns of `accounts` (username, perspective, themes). -/
def accountsSearchCols : List String := ["username", "perspective", "themes"]

/-- Searchable columns of `videos` (username, desc, url, title). -/
def videosSearchCols : List String := ["username", "desc", "url", "title"]

/-- Searchable columns of `words` (word, type_1). -/
def wordsSearchCols : List String := ["word", "type_1"]

/-- Searchable columns of `subtitles` (text, username). -/
def subtitlesSearchCols : List String := ["text", "username"]

/-- Direct filtering of one dataset: only datasets that are present and
non-empty get an entry in `filtered_data` at this phase. -/
def directOne (searchCols : List String) (ql : String) : Option Table → Option Table
  | some t =>
    if t.rows.isEmpty then none
    else some ⟨t.cols, t.rows.filter (maskHit t.cols searchCols ql)⟩
  | none => none

/-- The per-dataset direct filtering phase of `filter_data_by_query`. -/
def directFilter (data : DataCollection) (ql : String) : DataCollection :=
  { accounts := directOne accountsSearchCols ql data.accounts
    videos := directOne videosSearchCols ql data.videos
    words := directOne wordsSearchCols ql data.words
    subtitles := directOne subtitlesSearchCols ql data.subtitles }

/-- Is an entry of `filtered_data` present and non-empty? -/
def fdNonempty : Option Table → Bool
  | some t => !t.rows.isEmpty
  | none => false

/-- Column union of `pd.concat(..., sort=False)`: the first frame's
columns followed by the new ones of the second. -/
def combineCols (a b : List String) : List String :=
  a ++ b.filter (fun c => !a.contains c)

/-- SPECIAL CASE of the cross-dataset filtering (visualization.py):
if `words` matched but `videos` did not, recover videos through the URLs of
subtitles whose text contains the query term, and narrow `subtitles` to
those matches. -/
def stepWordsToVideos (data fd : DataCollection) (ql : String) : DataCollection :=
  if fdNonempty fd.words && !fdNonempty fd.videos then
    match data.subtitles with
    | some S =>
      if !S.rows.isEmpty && S.cols.contains "text" then
        let matching := S.rows.filter (fun r => strContains (pyLower (cellStr r "text")) ql)
        if !matching.isEmpty && S.cols.contains "url" then
          let subtitle_urls := matching.filterMap (fun r => cellVal r "url")
          match data.videos with
          | some V =>
            if !V.rows.isEmpty && !subtitle_urls.isEmpty && V.cols.contains "url" then
              let word_related := V.rows.filter
                (fun r => subtitle_urls.contains (cellStr r "url"))
              if !word_related.isEmpty then
                { fd with
                  videos := some ⟨V.cols, word_related⟩
                  subtitles := some ⟨S.cols, matching⟩ }
              else fd
            else fd
          | none => fd
        else fd
      else fd
    | none => fd
  else fd

/-- Cross-propagation of filtered `accounts` usernames into `videos`
(visualization.py): union with any existing filter, with
`drop_duplicates` (modelled by `List.dedup`, which keeps the same distinct
rows and the same row count as pandas, though pandas keeps the first of
each pair of duplicates). -/
def stepAccountsToVideos (data fd : DataCollection) : DataCollection :=
  match fd.accounts with
  | some A =>
    if !A.rows.isEmpty then
      let filtered_usernames := A.rows.filterMap (fun r => cellVal r "username")
      match data.videos with
      | some V =>
        if !V.rows.isEmpty && !filtered_usernames.isEmpty &&
            V.cols.contains "username" then
          let related := V.rows.filter
            (fun r => filtered_usernames.contains (cellStr r "username"))
          match fd.videos with
          | some FV =>
            if !FV.rows.isEmpty then
              { fd with videos := some ⟨combineCols FV.cols V.cols, (FV.rows ++ related).dedup⟩ }
            else if !related.isEmpty then
              { fd with videos := some ⟨V.cols, related⟩ }
            else fd
          | none =>
            if !related.isEmpty then { fd with videos := some ⟨V.cols, related⟩ }
            else fd
        else fd
      | none => fd
    else fd
  | none => fd

/-- Cross-propagation of filtered `subtitles` URLs into `videos`
(visualization.py). -/
def stepSubtitlesToVideos (data fd : DataCollection) : DataCollection :=
  match fd.subtitles with
  | some FS =>
    if !FS.rows.isEmpty && FS.cols.contains "url" then
      let subtitle_urls := FS.rows.filterMap (fun r => cellVal r "url")
      match data.videos with
      | some V =>
        if !V.rows.isEmpty && !subtitle_urls.isEmpty && V.cols.contains "url" then
          let rel := V.rows.filter (fun r => subtitle_urls.contains (cellStr r "url"))
          match fd.videos with
          | some FV =>
            if !FV.rows.isEmpty then
              { fd with videos := some ⟨combineCols FV.cols V.cols, (FV.rows ++ rel).dedup⟩ }
            else if !rel.isEmpty then { fd with videos := some ⟨V.cols, rel⟩ }
            else fd
          | none =>
            if !rel.isEmpty then { fd with videos := some ⟨V.cols, rel⟩ } else fd
        else fd
      | none => fd
    else fd
  | none => fd

/-- Cross-propagation of filtered `accounts` usernames into `subtitles`
(visualization.py). -/
def stepAccountsToSubtitles (data fd : DataCollection) : DataCollection :=
  match fd.accounts with
  | some A =>
    if !A.rows.isEmpty then
      let filtered_usernames := A.rows.filterMap (fun r => cellVal r "username")
      match data.subtitles with
      | some S =>
        if !S.rows.isEmpty && !filtered_usernames.isEmpty &&
            S.cols.contains "username" then
          let related := S.rows.filter
            (fun r => filtered_usernames.contains (cellStr r "username"))
          match fd.subtitles with
          | some FS =>
            if !FS.rows.isEmpty then
              { fd with subtitles := some ⟨combineCols FS.cols S.cols, (FS.rows ++ related).dedup⟩ }
            else if !related.isEmpty then
              { fd with subtitles := some ⟨S.cols, related⟩ }
            else fd
          | none =>
            if !related.isEmpty then { fd with subtitles := some ⟨S.cols, related⟩ }
            else fd
        else fd
      | none => fd
    else fd
  | none => fd

/-- The one unguarded column access of the cross-propagation block:
`filtered_data["accounts"]["username"]` raises `KeyError` when the filtered
accounts are non-empty but have no `username` column; the surrounding
`try/except` then abandons the remaining cross-propagation steps. -/
def accountsUsernameKeyError (fd : DataCollection) : Bool :=
  match fd.accounts with
  | some A => !A.rows.isEmpty && !A.cols.contains "username"
  | none => false

/-- The full cross-dataset filtering block of `filter_data_by_query`, in
source order: words→videos recovery, accounts→videos, subtitles→videos,
accounts→subtitles, with the `KeyError` abort after the first step. -/
def crossPropagate (data fd : DataCollection) (ql : String) : DataCollection :=
  let fd1 := stepWordsToVideos data fd ql
  if accountsUsernameKeyError fd1 then fd1
  else
    stepAccountsToSubtitles data
      (stepSubtitlesToVideos data (stepAccountsToVideos data fd1))

/-- Fill-in phase: every key present in the input but absent from
`filtered_data` is given an empty DataFrame. -/
def fillOne : Option Table → Option Table → Option Table
  | some _, none => some ⟨[], []⟩
  | _, f => f

/-- Fill-in over the four contractual keys. -/
def fillMissing (data fd : DataCollection) : DataCollection :=
  { accounts := fillOne data.accounts fd.accounts
    videos := fillOne data.videos fd.videos
    words := fillOne data.words fd.words
    subtitles := fillOne data.subtitles fd.subtitles }

/-- `len` of one entry of the dict (0 when absent). -/
def optLen : Option Table → Nat
  | some t => t.rows.length
  | none => 0

/-- Total record count over the dict's values. -/
def totalRecords (d : DataCollection) : Nat :=
  optLen d.accounts + optLen d.videos + optLen d.words + optLen d.subtitles

/-- `generic_queries` of `filter_data_by_query` (visualization.py). -/
def generic_queries : List String :=
  ["análisis de datos", "analysis", "resumen", "summary", "datos", "data"]

/-- `if not query or not query.strip()`. -/
def blankQuery (q : String) : Bool := q.isEmpty || (pyStripS q).isEmpty

/-- The generic-query test of `filter_data_by_query`. -/
def isGenericQuery (ql : String) : Bool :=
  generic_queries.any (fun g => strStarts ql g || ql == g)

/-- The filtering pipeline before the no-match fallback: direct per-dataset
masks, cross-propagation, fill-in. -/
def filterPipeline (data : DataCollection) (ql : String) : DataCollection :=
  fillMissing data (crossPropagate data (directFilter data ql) ql)

/-- `filter_data_by_query` (visualization.py): blank and generic queries
return the data unchanged; otherwise run the pipeline and fall back to the
original data when the filtered total is zero. -/
def filter_data_by_query (data : DataCollection) (query : String) : DataCollection :=
  if blankQuery query then data
  else
    let ql := pyStripS (pyLower query)
    if isGenericQuery ql then data
    else
      let fd := filterPipeline data ql
      if totalRecords fd = 0 then data else fd

/-! ### backend/visualization.py — generate_visualization -/

/-- The `filter_info` block attached to a visualization payload. -/
structure FilterInfo where
  query : Option String
  original_records : Option Nat
  filtered_records : Option Nat
  filtered : Bool
deriving DecidableEq

/-- A visualization payload, restricted to the keys the pipeline under
verification reads or writes.  The chart-specific keys produced by the
individual generators are outside the verified core (spec §1) and are not
modelled. -/
structure Payload where
  type : Option String
  title : Option String
  message : Option String
  suggestion : Option String
  error : Option String
  filter_info : Option FilterInfo
deriving DecidableEq

/-- The early no-data payload of `generate_visualization`
(visualization.py). -/
def no_data_generate (query : String) : Payload :=
  { type := some "no_data"
    title := some "Sin Datos Disponibles"
    message := some ("No se encontraron datos relevantes para " ++ quoteStr ++
      query ++ quoteStr ++ " en el conjunto de datos disponible.")
    suggestion := some "Intenta con una palabra diferente o consulta términos más generales."
    error := none
    filter_info := some ⟨none, none, none, false⟩ }

/-- `generic_terms` of the specific-query check in `generate_visualization`. -/
def genericVizTerms : List String :=
  ["datos", "información", "análisis", "resumen", "gráfico", "visualización"]

/-- The condition under which `generate_visualization` returns its early
no-data payload: a non-blank query whose filtering changed no total count,
longer than 3 characters once stripped, containing no generic term. -/
def earlyNoData (data : DataCollection) (query : String) : Bool :=
  (!query.isEmpty && !(pyStripS query).isEmpty) &&
  (totalRecords (filter_data_by_query data query) == totalRecords data) &&
  !(pyStripS query).isEmpty && decide (3 < (pyStripS query).length) &&
  !genericVizTerms.any (fun g => strContains (pyStripS (pyLower query)) g)

/-- The regex chain inferring a visualization type when the caller passed
none (visualization.py, `re.search` with `IGNORECASE`). -/
def inferVizType (query : String) : String :=
  let ql := pyLower query
  if ["tiempo", "temporal", "evolucion", "evolución", "tendencia"].any
      (fun p => strContains ql p) then "time_series"
  else if ["comparar", "versus", "vs", "diferencia"].any
      (fun p => strContains ql p) then "comparison"
  else if ["distribucion", "distribución", "histograma"].any
      (fun p => strContains ql p) then "distribution"
  else if ["red", "conexion", "conexión", "relacion", "relación"].any
      (fun p => strContains ql p) then "network"
  else if ["sentimiento", "emocion", "emoción"].any
      (fun p => strContains ql p) then "sentiment"
  else "summary"

/-- `generate_visualization` (visualization.py).  The table of chart
generators (`generators.get(viz_type, generate_summary_visualization)`,
whose members build the chart-specific payload keys and are outside the
verified core) is abstracted as the function argument `g`, applied to the
resolved type, the filtered data and the query. -/
def generate_visualization (g : String → DataCollection → String → Payload)
    (data : DataCollection) (query : String) (viz_type0 : Option String) : Payload :=
  let filtered_data := filter_data_by_query data query
  if earlyNoData data query then no_data_generate query
  else
    let viz_type := viz_type0.getD (inferVizType query)
    let vd0 := g viz_type filtered_data query
    let vd1 := if vd0.type = none then { vd0 with type := some viz_type } else vd0
    let vd2 :=
      if !query.isEmpty && !(pyStripS query).isEmpty then
        let fi : FilterInfo := ⟨some query, some (totalRecords data),
          some (totalRecords filtered_data), true⟩
        let vd := { vd1 with filter_info := some fi }
        let base_title := vd.title.getD ("Visualización (" ++ viz_type ++ ")")
        if !strStarts base_title "Error" then
          { vd with title := some (base_title ++ " - Filtrado: " ++ quoteStr ++
            query ++ quoteStr) }
        else vd
      else { vd1 with filter_info := some ⟨none, none, none, false⟩ }
    let titleMissing : Bool :=
      match vd2.title with
      | none => true
      | some t => t.isEmpty
    let vd3 :=
      if titleMissing then
        { vd2 with title := some ("Visualización (" ++ viz_type ++ ")") }
      else vd2
    match vd3.error with
    | some e =>
      if e.isEmpty then vd3
      else { vd3 with title := some ("Error al Generar Visualización (" ++ viz_type ++ ")") }
    | none => vd3

/-! ### backend/app.py — the chat endpoint's visualization branch -/

/-- The no-data payload the `chat` endpoint builds when `smart_query` is
`None` (app.py). -/
def no_data_chat (query : String) : Payload :=
  { type := some "no_data"
    title := some "Sin Datos Disponibles"
    message := some ("No se encontraron términos específicos para filtrar en la consulta " ++
      quoteStr ++ query ++ quoteStr ++ ".")
    suggestion := some "Intenta usar palabras más específicas como nombres de conceptos políticos o sociales."
    error := none
    filter_info := some ⟨none, none, none, false⟩ }

/-- The visualization branch of the `chat` endpoint (app.py): analyze the
query, and either short-circuit to the no-data payload when no meaningful
term was extracted, or generate the visualization from the smart query and
the suggested type. -/
def chat_visualization (g : String → DataCollection → String → Payload)
    (data : DataCollection) (query : String)
    (visualization_type : Option String) : Payload :=
  let res := analyze_query_for_visualization_type query visualization_type
  match res.2.2 with
  | none => no_data_chat query
  | some smartQ => generate_visualization g data smartQ (some res.1)

/-! ### backend/data_loader.py — determine_relevant_datasets -/

/-- `dataset_keywords` (data_loader.py). -/
def dataset_keywords : List (String × List String) :=
  [ ("accounts",
     [ "cuenta", "creador", "usuario", "perfil", "seguidor", "influencer",
       "perspectiva", "ideología", "política", "orientación", "biografía",
       "followers", "creator", "account", "profile", "perspective", "ideology" ]),
    ("videos",
     [ "video", "contenido", "publicación", "post", "views", "visualización",
       "fecha", "tiempo", "temporal", "evolución", "tendencia", "viral",
       "content", "publication", "date", "time", "trend", "evolution" ]),
    ("subtitles",
     [ "subtítulo", "transcripción", "texto", "habla", "dice", "menciona",
       "palabra", "frase", "discurso", "conversación", "diálogo",
       "subtitle", "transcription", "text", "speech", "word", "phrase",
       "dialogue" ]),
    ("words",
     [ "palabra", "término", "sentimiento", "emoción", "análisis", "semántico",
       "significado", "connotación", "polaridad", "positivo", "negativo",
       "word", "term", "sentiment", "emotion", "meaning", "positive",
       "negative" ]) ]

/-- Dictionary lookup in the loader's dataset dict (modelled as an
association list in insertion order). -/
def lookupData (data : List (String × Table)) (k : String) : Option Table :=
  (data.find? (fun p => p.1 == k)).map (fun p => p.2)

/-- The keyword-overlap scoring loop of `determine_relevant_datasets`:
each known, present, non-empty dataset scores
`min(matching_keywords / len(keywords), 1.0)`. -/
def keywordScores (query : String) (data : List (String × Table)) :
    List (String × ℚ) :=
  let ql := pyLower query
  dataset_keywords.filterMap (fun nk =>
    match lookupData data nk.1 with
    | some t =>
      if t.rows.isEmpty then none
      else some (nk.1, min ((countKw ql nk.2 : ℚ) / (nk.2.length : ℚ)) 1)
    | none => none)

/-- Assignment `d[k] = v` on a dict modelled as an association list with
unique keys: update in place, or append. -/
def dictInsert (d : List (String × ℚ)) (k : String) (v : ℚ) : List (String × ℚ) :=
  if d.any (fun p => p.1 == k) then
    d.map (fun p => if p.1 == k then (k, v) else p)
  else d ++ [(k, v)]

/-- `determine_relevant_datasets` (data_loader.py): keyword scores, the
uniform 0.3 fallback when no keyword matched, and the final removal of
zero-score entries. -/
def determine_relevant_datasets (query : String) (data : List (String × Table)) :
    List (String × ℚ) :=
  let scores0 := keywordScores query data
  let scores1 :=
    if scores0.any (fun p => decide (0 < p.2)) then scores0
    else data.foldl
      (fun d nt => if nt.2.rows.isEmpty then d else dictInsert d nt.1 (3 / 10)) scores0
  scores1.filter (fun p => decide (0 < p.2))

/-! ### Generic helper lemmas -/

theorem contains_mem {l : List String} {a : String} : l.contains a = true ↔ a ∈ l := by
  simp [List.contains]

theorem find_first_aux {α} (p : α → Bool) (l : List α) (hex : ∃ a ∈ l, p a) :
    ∃ b, l.find? p = some b ∧ p b ∧
      ∃ l1 l2, l = l1 ++ b :: l2 ∧ ∀ x ∈ l1, p x = false := by
  induction l with
  | nil => obtain ⟨a, ha, _⟩ := hex; exact absurd ha (List.not_mem_nil a)
  | cons c cs ih =>
    by_cases hc : p c
    · exact ⟨c, by simp [List.find?_cons, hc], hc, [], cs, rfl, by simp⟩
    · have hex2 : ∃ a ∈ cs, p a := by
        obtain ⟨a, ha, hpa⟩ := hex
        rcases List.mem_cons.mp ha with h | h
        · subst h; exact absurd hpa hc
        · exact ⟨a, h, hpa⟩
      obtain ⟨b, hfind, hpb, l1, l2, heq, hl1⟩ := ih hex2
      refine ⟨b, ?_, hpb, c :: l1, l2, by simp [heq], ?_⟩
      · simpa [List.find?_cons, Bool.eq_false_iff.mpr hc] using hfind
      · intro x hx
        rcases List.mem_cons.mp hx with h | h
        · subst h; exact Bool.eq_false_iff.mpr hc
        · exact hl1 x h

/-! ### C2 — domain-term priority in extract_word_with_regex_fallback -/

/-- C2.  Domain-term priority: whenever the lowercased query has a token
belonging to the curated important-terms list, `extract_word_with_regex_fallback`
returns a term of that list — specifically the first such token in query
order — rather than `None` or any other candidate.  (In particular,
`extract_term("dime sobre la revolución en chile") = "revolución"`; see the
witness.) -/
theorem extract_term_domain_priority (q t : String)
    (ht : t ∈ wordTokens (pyLower q)) (himp : t ∈ importantTermsEWRF) :
    ∃ w, extract_word_with_regex_fallback q = some w ∧
      w ∈ importantTermsEWRF ∧
      ∃ pre post, wordTokens (pyLower q) = pre ++ w :: post ∧
        ∀ x ∈ pre, x ∉ importantTermsEWRF := by
  have hex : ∃ a ∈ wordTokens (pyLower q), importantTermsEWRF.contains a :=
    ⟨t, ht, contains_mem.mpr himp⟩
  obtain ⟨b, hfind, hpb, l1, l2, heq, hl1⟩ :=
    find_first_aux (fun w => importantTermsEWRF.contains w) _ hex
  refine ⟨b, ?_, contains_mem.mp hpb, l1, l2, heq, ?_⟩
  · unfold extract_word_with_regex_fallback
    simp only [hfind]
  · intro x hx hmem
    have := hl1 x hx
    rw [contains_mem.mpr hmem] at this
    exact Bool.true_eq_false.mp this

/-- Witness for C2 at the spec's example query. -/
theorem extract_term_domain_priority_witness :
    ∃ w, extract_word_with_regex_fallback "dime sobre la revolución en chile" = some w ∧
      w ∈ importantTermsEWRF ∧
      ∃ pre post,
        wordTokens (pyLower "dime sobre la revolución en chile") = pre ++ w :: post ∧
        ∀ x ∈ pre, x ∉ importantTermsEWRF :=
  extract_term_domain_priority "dime sobre la revolución en chile" "revolución"
    (by decide) (by decide)

/-! ### C3 — no extracted term yields a first-class no_data payload -/

/-- C3.  When the extraction pipeline yields no meaningful filter term
(`smart_query` is `None`), the chat endpoint's visualization branch returns
the `no_data` payload with its Spanish message and suggestion, as an
ordinary value (the embedding is a total function; no exception is
modelled because the code path raises none), and does so without
consulting the datasets: the result is the same for every dataset
collection and every generator. -/
theorem no_term_extracted_yields_no_data
    (g : String → DataCollection → String → Payload)
    (data : DataCollection) (q : String) (rt : Option String)
    (h : (analyze_query_for_visualization_type q rt).2.2 = none) :
    chat_visualization g data q rt = no_data_chat q ∧
    (chat_visualization g data q rt).type = some "no_data" ∧
    (chat_visualization g data q rt).message =
      some ("No se encontraron términos específicos para filtrar en la consulta " ++
        quoteStr ++ q ++ quoteStr ++ ".") ∧
    (chat_visualization g data q rt).suggestion =
      some "Intenta usar palabras más específicas como nombres de conceptos políticos o sociales." ∧
    ∀ (g2 : String → DataCollection → String → Payload) (data2 : DataCollection),
      chat_visualization g2 data2 q rt = chat_visualization g data q rt := by
  have hmain : ∀ (g2 : String → DataCollection → String → Payload)
      (data2 : DataCollection), chat_visualization g2 data2 q rt = no_data_chat q := by
    intro g2 data2
    unfold chat_visualization
    simp only [h]
  refine ⟨hmain g data, ?_, ?_, ?_, ?_⟩
  · rw [hmain g data]; rfl
  · rw [hmain g data]; rfl
  · rw [hmain g data]; rfl
  · intro g2 data2; rw [hmain g2 data2, hmain g data]

/-- Witness for C3 at the spec's example query "oye qué tal". -/
theorem no_term_extracted_yields_no_data_witness :
    chat_visualization (fun _ _ _ => ⟨none, none, none, none, none, none⟩)
        ⟨none, none, none, none⟩ "oye qué tal" none =
      no_data_chat "oye qué tal" ∧
    (chat_visualization (fun _ _ _ => ⟨none, none, none, none, none, none⟩)
        ⟨none, none, none, none⟩ "oye qué tal" none).type = some "no_data" ∧
    (chat_visualization (fun _ _ _ => ⟨none, none, none, none, none, none⟩)
        ⟨none, none, none, none⟩ "oye qué tal" none).message =
      some ("No se encontraron términos específicos para filtrar en la consulta " ++
        quoteStr ++ "oye qué tal" ++ quoteStr ++ ".") ∧
    (chat_visualization (fun _ _ _ => ⟨none, none, none, none, none, none⟩)
        ⟨none, none, none, none⟩ "oye qué tal" none).suggestion =
      some "Intenta usar palabras más específicas como nombres de conceptos políticos o sociales." ∧
    ∀ (g2 : String → DataCollection → String → Payload) (data2 : DataCollection),
      chat_visualization g2 data2 "oye qué tal" none =
        chat_visualization (fun _ _ _ => ⟨none, none, none, none, none, none⟩)
          ⟨none, none, none, none⟩ "oye qué tal" none :=
  no_term_extracted_yields_no_data _ _ "oye qué tal" none (by decide)

/-! ### C8 — visualization intent selection -/

/-- C8.  With no caller-requested type: a time-series override substring
("evolución de" / "a lo largo del tiempo", among the override list) forces
`time_series`; failing that, "comparar" or "vs" forces `comparison`; and
when none of the override patterns applies and the highest score among the
five keyword categories is 0 or below the threshold 2, the selection
defaults to `summary`.  (The three rules are guarded in the order of the
source's `if/elif` chain.) -/
theorem visualization_intent_selection_rules :
    (∀ q : String,
        timeOverridePatterns.any (fun p => strContains (pyLower q) p) = true →
        (analyze_query_for_visualization_type q none).1 = "time_series") ∧
    (∀ q : String,
        timeOverridePatterns.any (fun p => strContains (pyLower q) p) = false →
        (strContains (pyLower q) "comparar" = true ∨
          strContains (pyLower q) "vs" = true) →
        (analyze_query_for_visualization_type q none).1 = "comparison") ∧
    (∀ q : String,
        timeOverridePatterns.any (fun p => strContains (pyLower q) p) = false →
        comparisonOverridePatterns.any (fun p => strContains (pyLower q) p) = false →
        sentimentOverridePatterns.any (fun p => strContains (pyLower q) p) = false →
        focusedOverridePatterns.any (fun p => strContains (pyLower q) p) = false →
        ((maxByVal (vizTypeScores q)).2 = 0 ∨ (maxByVal (vizTypeScores q)).2 < 2) →
        (analyze_query_for_visualization_type q none).1 = "summary") := by
  refine ⟨?_, ?_, ?_⟩
  · intro q h
    unfold analyze_query_for_visualization_type
    simp only [h, if_true]
  · intro q hn h
    have hc : comparisonOverridePatterns.any (fun p => strContains (pyLower q) p) = true := by
      rcases h with h | h
      · exact List.any_eq_true.mpr ⟨"comparar", by simp [comparisonOverridePatterns], h⟩
      · exact List.any_eq_true.mpr ⟨"vs", by simp [comparisonOverridePatterns], h⟩
    unfold analyze_query_for_visualization_type
    simp only [hn, hc, Bool.false_eq_true, if_false, if_true]
  · intro q h1 h2 h3 h4 hbest
    unfold analyze_query_for_visualization_type
    simp only [h1, h2, h3, h4, Bool.false_eq_true, if_false]
    rw [if_pos hbest]

/-- The score table of the no-signal query "hola" is all zeroes (the
rational arithmetic is evaluated by `norm_num`; the keyword counts and the
extraction are evaluated by `decide`). -/
theorem vizTypeScores_hola :
    vizTypeScores "hola" =
      [("time_series", (0 : ℚ)), ("comparison", 0), ("sentiment", 0),
       ("summary", 0), ("focused_chart", 0)] := by
  have h1 : countKw (pyLower "hola") time_keywords = 0 := by decide
  have h2 : countKw (pyLower "hola") comparison_keywords = 0 := by decide
  have h3 : countKw (pyLower "hola") sentiment_keywords = 0 := by decide
  have h4 : countKw (pyLower "hola") summary_keywords = 0 := by decide
  have h5 : countKw (pyLower "hola") individual_keywords = 0 := by decide
  have h6 : countKw (pyLower "hola") user_keywords = 0 := by decide
  have h7 : countKw (pyLower "hola") word_keywords = 0 := by decide
  have he : (extract_key_terms_from_query "hola").target_words = [] := by decide
  have hu : (extract_key_terms_from_query "hola").usernames = [] := by decide
  have hs : sentiment_keywords.any (fun k => strContains (pyLower "hola") k) = false := by
    decide
  unfold vizTypeScores
  simp only [h1, h2, h3, h4, h5, h6, h7, he, hu, hs, List.isEmpty_nil]
  norm_num

/-- Witness for C8 at the spec's three example queries. -/
theorem visualization_intent_selection_rules_witness :
    (analyze_query_for_visualization_type
      "muéstrame la evolución de menciones de justicia en el tiempo" none).1 =
        "time_series" ∧
    (analyze_query_for_visualization_type "compara @userA vs @userB" none).1 =
        "comparison" ∧
    (analyze_query_for_visualization_type "hola" none).1 = "summary" :=
  ⟨visualization_intent_selection_rules.1 _ (by decide),
   visualization_intent_selection_rules.2.1 _ (by decide) (Or.inr (by decide)),
   visualization_intent_selection_rules.2.2 _ (by decide) (by decide) (by decide)
     (by decide) (by rw [vizTypeScores_hola]; left; norm_num [maxByVal])⟩

/-! ### C4 — determine_relevant_datasets never empty, values in (0,1] -/

theorem keywordScores_le_one (q : String) (data : List (String × Table)) :
    ∀ p ∈ keywordScores q data, p.2 ≤ 1 := by
  intro p hp
  unfold keywordScores at hp
  simp only [List.mem_filterMap] at hp
  obtain ⟨nk, _, hnk⟩ := hp
  rcases h : lookupData data nk.1 with _ | t <;> rw [h] at hnk
  · simp at hnk
  · by_cases he : t.rows.isEmpty <;> simp [he] at hnk
    rw [← hnk]
    exact inf_le_right

theorem dictInsert_mem_self (d : List (String × ℚ)) (k : String) (v : ℚ) :
    (k, v) ∈ dictInsert d k v := by
  unfold dictInsert
  by_cases h : d.any (fun p => p.1 == k)
  · rw [if_pos h]
    obtain ⟨p, hp, hpk⟩ := List.any_eq_true.mp h
    have h2 := List.mem_map_of_mem (fun p : String × ℚ => if p.1 == k then (k, v) else p) hp
    simpa only [hpk, if_true] using h2
  · rw [if_neg h]
    exact List.mem_append_right _ (List.mem_singleton_self _)

theorem dictInsert_mem_keep (d : List (String × ℚ)) (k m : String) (v : ℚ)
    (h : (m, v) ∈ d) : (m, v) ∈ dictInsert d k v := by
  unfold dictInsert
  by_cases hk : d.any (fun p => p.1 == k)
  · rw [if_pos hk]
    have h2 := List.mem_map_of_mem (fun p : String × ℚ => if p.1 == k then (k, v) else p) h
    by_cases hmk : m = k
    · subst hmk
      simpa using h2
    · simpa [hmk] using h2
  · rw [if_neg hk]
    exact List.mem_append_left _ h

theorem dictInsert_le_one (d : List (String × ℚ)) (k : String) (v : ℚ)
    (hd : ∀ p ∈ d, p.2 ≤ 1) (hv : v ≤ 1) : ∀ p ∈ dictInsert d k v, p.2 ≤ 1 := by
  intro p hp
  unfold dictInsert at hp
  by_cases hk : d.any (fun q => q.1 == k)
  · rw [if_pos hk] at hp
    obtain ⟨q, hq, hqp⟩ := List.mem_map.mp hp
    by_cases hqk : (q.1 == k : Bool)
    · rw [if_pos hqk] at hqp; rw [← hqp]; exact hv
    · rw [if_neg (by simpa using hqk)] at hqp; rw [← hqp]; exact hd q hq
  · rw [if_neg hk] at hp
    rcases List.mem_append.mp hp with h | h
    · exact hd p h
    · rw [List.mem_singleton.mp h]; exact hv

theorem fallback_fold_keep (L : List (String × Table)) (m : String) :
    ∀ d, (m, (3 : ℚ) / 10) ∈ d →
      (m, (3 : ℚ) / 10) ∈
        L.foldl (fun d nt => if nt.2.rows.isEmpty then d
          else dictInsert d nt.1 (3 / 10)) d := by
  induction L with
  | nil => exact fun d h => h
  | cons nt L ih =>
    intro d h
    simp only [List.foldl_cons]
    by_cases he : nt.2.rows.isEmpty
    · rw [if_pos he]; exact ih d h
    · rw [if_neg he]; exact ih _ (dictInsert_mem_keep _ _ _ _ h)

theorem fallback_fold_mem (L : List (String × Table)) (n : String) (t : Table) :
    (n, t) ∈ L → t.rows ≠ [] →
    ∀ d, (n, (3 : ℚ) / 10) ∈
      L.foldl (fun d nt => if nt.2.rows.isEmpty then d
        else dictInsert d nt.1 (3 / 10)) d := by
  induction L with
  | nil => exact fun hmem => absurd hmem (List.not_mem_nil _)
  | cons nt L ih =>
    intro hmem hne d
    simp only [List.foldl_cons]
    rcases List.mem_cons.mp hmem with h | h
    · obtain rfl : nt = (n, t) := h.symm
      rw [if_neg (by simpa [List.isEmpty_iff] using hne)]
      exact fallback_fold_keep L n _ (dictInsert_mem_self d n _)
    · by_cases he : nt.2.rows.isEmpty
      · rw [if_pos he]; exact ih h hne d
      · rw [if_neg he]; exact ih h hne _

theorem fallback_fold_le_one (L : List (String × Table)) :
    ∀ d, (∀ p ∈ d, p.2 ≤ 1) →
      ∀ p ∈ L.foldl (fun d nt => if nt.2.rows.isEmpty then d
          else dictInsert d nt.1 (3 / 10)) d,
        p.2 ≤ 1 := by
  induction L with
  | nil => exact fun d hd => hd
  | cons nt L ih =>
    intro d hd
    simp only [List.foldl_cons]
    by_cases he : nt.2.rows.isEmpty
    · rw [if_pos he]; exact ih d hd
    · rw [if_neg he]
      exact ih _ (dictInsert_le_one d nt.1 _ hd (by norm_num))

/-- C4.  Relevance-map non-emptiness and fallback: whenever some dataset in
the collection is non-empty, `determine_relevant_datasets` returns a
non-empty mapping whose values all lie in (0, 1] (zero-score datasets have
been dropped); and when every keyword-overlap score is 0, every non-empty
dataset of the collection appears with the uniform fallback score 0.3. -/
theorem determine_relevant_datasets_spec (q : String) (data : List (String × Table))
    (h : ∃ p ∈ data, p.2.rows ≠ []) :
    determine_relevant_datasets q data ≠ [] ∧
    (∀ p ∈ determine_relevant_datasets q data, 0 < p.2 ∧ p.2 ≤ 1) ∧
    ((∀ p ∈ keywordScores q data, p.2 = 0) →
      ∀ p ∈ data, p.2.rows ≠ [] →
        (p.1, (3 : ℚ) / 10) ∈ determine_relevant_datasets q data) := by
  obtain ⟨pd, hpd, hpdne⟩ := h
  unfold determine_relevant_datasets
  by_cases hany : (keywordScores q data).any (fun p => decide (0 < p.2))
  · simp only [hany, if_true]
    obtain ⟨p0, hp0, hp0pos⟩ := List.any_eq_true.mp hany
    have hp0pos : (0 : ℚ) < p0.2 := of_decide_eq_true hp0pos
    refine ⟨?_, ?_, ?_⟩
    · exact List.ne_nil_of_mem (List.mem_filter.mpr ⟨hp0, decide_eq_true hp0pos⟩)
    · intro p hp
      have hmem := List.mem_filter.mp hp
      exact ⟨of_decide_eq_true hmem.2, keywordScores_le_one q data p hmem.1⟩
    · intro hall
      exact absurd (hall p0 hp0) (ne_of_gt hp0pos)
  · simp only [hany, Bool.false_eq_true, if_false]
    have hmem : (pd.1, (3 : ℚ) / 10) ∈
        data.foldl (fun d nt => if nt.2.rows.isEmpty then d
          else dictInsert d nt.1 (3 / 10)) (keywordScores q data) :=
      fallback_fold_mem data pd.1 pd.2 (by simpa using hpd) hpdne _
    refine ⟨?_, ?_, ?_⟩
    · exact List.ne_nil_of_mem (List.mem_filter.mpr ⟨hmem, by norm_num⟩)
    · intro p hp
      have hmem2 := List.mem_filter.mp hp
      exact ⟨of_decide_eq_true hmem2.2,
        fallback_fold_le_one data _ (keywordScores_le_one q data) p hmem2.1⟩
    · intro _ p hp hpne
      exact List.mem_filter.mpr
        ⟨fallback_fold_mem data p.1 p.2 (by simpa using hp) hpne _, by norm_num⟩

/-- Witness for C4: a collection with one non-empty dataset and a query
with no keyword overlap. -/
theorem determine_relevant_datasets_spec_witness :
    determine_relevant_datasets "xyz"
        [("accounts", ⟨["username"], [[("username", "a")]]⟩)] ≠ [] ∧
    (∀ p ∈ determine_relevant_datasets "xyz"
        [("accounts", ⟨["username"], [[("username", "a")]]⟩)], 0 < p.2 ∧ p.2 ≤ 1) ∧
    ((∀ p ∈ keywordScores "xyz"
        [("accounts", ⟨["username"], [[("username", "a")]]⟩)], p.2 = 0) →
      ∀ p ∈ [(("accounts" : String), (⟨["username"], [[("username", "a")]]⟩ : Table))],
        p.2.rows ≠ [] →
        (p.1, (3 : ℚ) / 10) ∈ determine_relevant_datasets "xyz"
          [("accounts", ⟨["username"], [[("username", "a")]]⟩)]) :=
  determine_relevant_datasets_spec "xyz" _
    ⟨("accounts", ⟨["username"], [[("username", "a")]]⟩), by decide, by decide⟩

/-! ### The filter claims: invariants of filter_data_by_query -/

/-- The four contractual dataset keys. -/
inductive DSName where
  | accounts
  | videos
  | words
  | subtitles
deriving DecidableEq

/-- Read one key of a dataset dict. -/
def getDS (d : DataCollection) : DSName → Option Table
  | DSName.accounts => d.accounts
  | DSName.videos => d.videos
  | DSName.words => d.words
  | DSName.subtitles => d.subtitles

/-- The searchable columns of each dataset. -/
def searchColsOf : DSName → List String
  | DSName.accounts => accountsSearchCols
  | DSName.videos => videosSearchCols
  | DSName.words => wordsSearchCols
  | DSName.subtitles => subtitlesSearchCols

/-- Every row of every table of `fd` is a row of the corresponding table of
`data`. -/
def SubsetRows (fd data : DataCollection) : Prop :=
  ∀ k t r, getDS fd k = some t → r ∈ t.rows →
    ∃ t0, getDS data k = some t0 ∧ r ∈ t0.rows

theorem subsetRows_refl (data : DataCollection) : SubsetRows data data :=
  fun _ t _ h hr => ⟨t, h, hr⟩

theorem directOne_subset (cols : List String) (ql : String) (o : Option Table)
    (t : Table) (r : Row) (ht : directOne cols ql o = some t) (hr : r ∈ t.rows) :
    ∃ t0, o = some t0 ∧ r ∈ t0.rows := by
  rcases o with _ | t0
  · exact absurd ht (by simp [directOne])
  · refine ⟨t0, rfl, ?_⟩
    simp only [directOne] at ht
    by_cases he : t0.rows.isEmpty
    · rw [if_pos he] at ht; exact absurd ht (by simp)
    · rw [if_neg he] at ht
      rw [← Option.some_inj.mp ht] at hr
      exact (List.mem_filter.mp hr).1

theorem directFilter_subset (data : DataCollection) (ql : String) :
    SubsetRows (directFilter data ql) data := by
  intro k t r ht hr
  cases k
  · exact directOne_subset _ ql data.accounts t r ht hr
  · exact directOne_subset _ ql data.videos t r ht hr
  · exact directOne_subset _ ql data.words t r ht hr
  · exact directOne_subset _ ql data.subtitles t r ht hr

/-- How one entry of `filtered_data` can evolve during one cross-propagation
step: unchanged; replaced by a filtered selection of the source table; or
the deduplicated union of the previous entry with a filtered selection of
the source table. -/
inductive EntryEvolves (src old : Option Table) : Option Table → Prop
  | same : EntryEvolves src old old
  | repl (V : Table) (f : Row → Bool) (cols : List String) :
      src = some V → EntryEvolves src old (some ⟨cols, V.rows.filter f⟩)
  | union (V FV : Table) (f : Row → Bool) (cols : List String) :
      src = some V → old = some FV →
      EntryEvolves src old (some ⟨cols, (FV.rows ++ V.rows.filter f).dedup⟩)

theorem evolve_subset {src old nw : Option Table}
    (h : EntryEvolves src old nw)
    (hold : ∀ t r, old = some t → r ∈ t.rows → ∃ t0, src = some t0 ∧ r ∈ t0.rows) :
    ∀ t r, nw = some t → r ∈ t.rows → ∃ t0, src = some t0 ∧ r ∈ t0.rows := by
  cases h with
  | same => exact hold
  | repl V f cols hsrc =>
    intro t r ht hr
    rw [← Option.some_inj.mp ht] at hr
    exact ⟨V, hsrc, (List.mem_filter.mp hr).1⟩
  | union V FV f cols hsrc hold2 =>
    intro t r ht hr
    rw [← Option.some_inj.mp ht] at hr
    have hr2 := List.mem_dedup.mp hr
    rcases List.mem_append.mp hr2 with h2 | h2
    · obtain ⟨t0, ht0, hrt0⟩ := hold FV r hold2 h2
      exact ⟨t0, ht0, hrt0⟩
    · exact ⟨V, hsrc, (List.mem_filter.mp h2).1⟩

theorem nodup_subset_length_le {α} [DecidableEq α] {l m : List α}
    (hn : l.Nodup) (hs : l ⊆ m) : l.length ≤ m.length := by
  calc l.length = l.toFinset.card := (List.toFinset_card_of_nodup hn).symm
    _ ≤ m.toFinset.card := Finset.card_le_card (by
        intro a ha
        rw [List.mem_toFinset] at *
        exact hs ha)
    _ ≤ m.length := List.toFinset_card_le m

theorem evolve_len {src old nw : Option Table}
    (h : EntryEvolves src old nw)
    (hold : ∀ t r, old = some t → r ∈ t.rows → ∃ t0, src = some t0 ∧ r ∈ t0.rows)
    (hlen : optLen old ≤ optLen src) : optLen nw ≤ optLen src := by
  cases h with
  | same => exact hlen
  | repl V f cols hsrc =>
    rw [hsrc]
    simpa [optLen] using List.length_filter_le f V.rows
  | union V FV f cols hsrc hold2 =>
    rw [hsrc]
    simp only [optLen]
    refine nodup_subset_length_le (List.nodup_dedup _) ?_
    intro r hr
    have hr2 := List.mem_dedup.mp hr
    rcases List.mem_append.mp hr2 with h2 | h2
    · obtain ⟨t0, ht0, hrt0⟩ := hold FV r hold2 h2
      rw [hsrc] at ht0
      rw [← Option.some_inj.mp ht0] at hrt0
      exact hrt0
    · exact (List.mem_filter.mp h2).1

theorem stepWordsToVideos_shape (data fd : DataCollection) (ql : String) :
    (stepWordsToVideos data fd ql).accounts = fd.accounts ∧
    (stepWordsToVideos data fd ql).words = fd.words ∧
    EntryEvolves data.videos fd.videos (stepWordsToVideos data fd ql).videos ∧
    EntryEvolves data.subtitles fd.subtitles (stepWordsToVideos data fd ql).subtitles := by
  simp only [stepWordsToVideos]
  repeat' split
  all_goals first
  | exact ⟨rfl, rfl, EntryEvolves.same, EntryEvolves.same⟩
  | exact ⟨rfl, rfl, EntryEvolves.repl _ _ _ (by assumption),
      EntryEvolves.repl _ _ _ (by assumption)⟩

theorem stepAccountsToVideos_shape (data fd : DataCollection) :
    (stepAccountsToVideos data fd).accounts = fd.accounts ∧
    (stepAccountsToVideos data fd).words = fd.words ∧
    EntryEvolves data.videos fd.videos (stepAccountsToVideos data fd).videos ∧
    EntryEvolves data.subtitles fd.subtitles (stepAccountsToVideos data fd).subtitles := by
  simp only [stepAccountsToVideos]
  repeat' split
  all_goals first
  | exact ⟨rfl, rfl, EntryEvolves.same, EntryEvolves.same⟩
  | exact ⟨rfl, rfl, EntryEvolves.repl _ _ _ (by assumption), EntryEvolves.same⟩
  | exact ⟨rfl, rfl, EntryEvolves.union _ _ _ _ (by assumption) (by assumption),
      EntryEvolves.same⟩

theorem stepSubtitlesToVideos_shape (data fd : DataCollection) :
    (stepSubtitlesToVideos data fd).accounts = fd.accounts ∧
    (stepSubtitlesToVideos data fd).words = fd.words ∧
    EntryEvolves data.videos fd.videos (stepSubtitlesToVideos data fd).videos ∧
    EntryEvolves data.subtitles fd.subtitles (stepSubtitlesToVideos data fd).subtitles := by
  simp only [stepSubtitlesToVideos]
  repeat' split
  all_goals first
  | exact ⟨rfl, rfl, EntryEvolves.same, EntryEvolves.same⟩
  | exact ⟨rfl, rfl, EntryEvolves.repl _ _ _ (by assumption), EntryEvolves.same⟩
  | exact ⟨rfl, rfl, EntryEvolves.union _ _ _ _ (by assumption) (by assumption),
      EntryEvolves.same⟩

theorem stepAccountsToSubtitles_shape (data fd : DataCollection) :
    (stepAccountsToSubtitles data fd).accounts = fd.accounts ∧
    (stepAccountsToSubtitles data fd).words = fd.words ∧
    EntryEvolves data.videos fd.videos (stepAccountsToSubtitles data fd).videos ∧
    EntryEvolves data.subtitles fd.subtitles (stepAccountsToSubtitles data fd).subtitles := by
  simp only [stepAccountsToSubtitles]
  repeat' split
  all_goals first
  | exact ⟨rfl, rfl, EntryEvolves.same, EntryEvolves.same⟩
  | exact ⟨rfl, rfl, EntryEvolves.same, EntryEvolves.repl _ _ _ (by assumption)⟩
  | exact ⟨rfl, rfl, EntryEvolves.same,
      EntryEvolves.union _ _ _ _ (by assumption) (by assumption)⟩

/-- The invariant maintained through the filter pipeline: derived rows come
from the input, and no dataset grows. -/
def FilterInv (data fd : DataCollection) : Prop :=
  SubsetRows fd data ∧ ∀ k, optLen (getDS fd k) ≤ optLen (getDS data k)

theorem inv_of_shape (data fd nd : DataCollection)
    (ha : nd.accounts = fd.accounts) (hw : nd.words = fd.words)
    (hv : EntryEvolves data.videos fd.videos nd.videos)
    (hs : EntryEvolves data.subtitles fd.subtitles nd.subtitles)
    (hinv : FilterInv data fd) : FilterInv data nd := by
  obtain ⟨hsub, hlen⟩ := hinv
  constructor
  · intro k t r ht hr
    cases k
    · rw [show getDS nd DSName.accounts = fd.accounts from ha] at ht
      exact hsub DSName.accounts t r ht hr
    · exact evolve_subset hv (fun t r h hr => hsub DSName.videos t r h hr) t r ht hr
    · rw [show getDS nd DSName.words = fd.words from hw] at ht
      exact hsub DSName.words t r ht hr
    · exact evolve_subset hs (fun t r h hr => hsub DSName.subtitles t r h hr) t r ht hr
  · intro k
    cases k
    · rw [show getDS nd DSName.accounts = fd.accounts from ha]
      exact hlen DSName.accounts
    · exact evolve_len hv (fun t r h hr => hsub DSName.videos t r h hr)
        (hlen DSName.videos)
    · rw [show getDS nd DSName.words = fd.words from hw]
      exact hlen DSName.words
    · exact evolve_len hs (fun t r h hr => hsub DSName.subtitles t r h hr)
        (hlen DSName.subtitles)

theorem crossPropagate_inv (data fd : DataCollection) (ql : String)
    (hinv : FilterInv data fd) : FilterInv data (crossPropagate data fd ql) := by
  have h1 : FilterInv data (stepWordsToVideos data fd ql) := by
    obtain ⟨ha, hw, hv, hs⟩ := stepWordsToVideos_shape data fd ql
    exact inv_of_shape data fd _ ha hw hv hs hinv
  unfold crossPropagate
  by_cases hk : accountsUsernameKeyError (stepWordsToVideos data fd ql)
  · rw [if_pos hk]; exact h1
  · rw [if_neg hk]
    have h2 : FilterInv data (stepAccountsToVideos data (stepWordsToVideos data fd ql)) := by
      obtain ⟨ha, hw, hv, hs⟩ := stepAccountsToVideos_shape data _
      exact inv_of_shape data _ _ ha hw hv hs h1
    have h3 : FilterInv data (stepSubtitlesToVideos data
        (stepAccountsToVideos data (stepWordsToVideos data fd ql))) := by
      obtain ⟨ha, hw, hv, hs⟩ := stepSubtitlesToVideos_shape data _
      exact inv_of_shape data _ _ ha hw hv hs h2
    obtain ⟨ha, hw, hv, hs⟩ := stepAccountsToSubtitles_shape data
      (stepSubtitlesToVideos data (stepAccountsToVideos data (stepWordsToVideos data fd ql)))
    exact inv_of_shape data _ _ ha hw hv hs h3

theorem fillOne_inv (d f : Option Table)
    (hsub : ∀ t r, f = some t → r ∈ t.rows → ∃ t0, d = some t0 ∧ r ∈ t0.rows)
    (hlen : optLen f ≤ optLen d) :
    (∀ t r, fillOne d f = some t → r ∈ t.rows → ∃ t0, d = some t0 ∧ r ∈ t0.rows) ∧
    optLen (fillOne d f) ≤ optLen d := by
  rcases d with _ | d0 <;> rcases f with _ | f0
  · exact ⟨hsub, hlen⟩
  · exact ⟨hsub, hlen⟩
  · constructor
    · intro t r ht hr
      simp only [fillOne] at ht
      rw [← Option.some_inj.mp ht] at hr
      exact absurd hr (List.not_mem_nil r)
    · simp [fillOne, optLen]
  · exact ⟨hsub, hlen⟩

theorem fillMissing_inv (data fd : DataCollection)
    (hinv : FilterInv data fd) : FilterInv data (fillMissing data fd) := by
  obtain ⟨hsub, hlen⟩ := hinv
  constructor
  · intro k t r ht hr
    cases k
    · exact (fillOne_inv data.accounts fd.accounts
        (fun t r h hr => hsub DSName.accounts t r h hr) (hlen DSName.accounts)).1 t r ht hr
    · exact (fillOne_inv data.videos fd.videos
        (fun t r h hr => hsub DSName.videos t r h hr) (hlen DSName.videos)).1 t r ht hr
    · exact (fillOne_inv data.words fd.words
        (fun t r h hr => hsub DSName.words t r h hr) (hlen DSName.words)).1 t r ht hr
    · exact (fillOne_inv data.subtitles fd.subtitles
        (fun t r h hr => hsub DSName.subtitles t r h hr) (hlen DSName.subtitles)).1 t r ht hr
  · intro k
    cases k
    · exact (fillOne_inv data.accounts fd.accounts
        (fun t r h hr => hsub DSName.accounts t r h hr) (hlen DSName.accounts)).2
    · exact (fillOne_inv data.videos fd.videos
        (fun t r h hr => hsub DSName.videos t r h hr) (hlen DSName.videos)).2
    · exact (fillOne_inv data.words fd.words
        (fun t r h hr => hsub DSName.words t r h hr) (hlen DSName.words)).2
    · exact (fillOne_inv data.subtitles fd.subtitles
        (fun t r h hr => hsub DSName.subtitles t r h hr) (hlen DSName.subtitles)).2

theorem directOne_len (cols : List String) (ql : String) (o : Option Table) :
    optLen (directOne cols ql o) ≤ optLen o := by
  rcases o with _ | t0
  · simp [directOne, optLen]
  · simp only [directOne]
    by_cases he : t0.rows.isEmpty
    · simp [he, optLen]
    · simp only [he, Bool.false_eq_true, if_false, optLen]
      exact List.length_filter_le _ _

theorem directFilter_inv (data : DataCollection) (ql : String) :
    FilterInv data (directFilter data ql) := by
  refine ⟨directFilter_subset data ql, ?_⟩
  intro k
  cases k
  · exact directOne_len accountsSearchCols ql data.accounts
  · exact directOne_len videosSearchCols ql data.videos
  · exact directOne_len wordsSearchCols ql data.words
  · exact directOne_len subtitlesSearchCols ql data.subtitles

theorem filterPipeline_inv (data : DataCollection) (ql : String) :
    FilterInv data (filterPipeline data ql) := by
  unfold filterPipeline
  exact fillMissing_inv data _ (crossPropagate_inv data _ ql (directFilter_inv data ql))

theorem filter_data_inv (data : DataCollection) (q : String) :
    FilterInv data (filter_data_by_query data q) := by
  unfold filter_data_by_query
  have hrefl : FilterInv data data := ⟨subsetRows_refl data, fun k => le_refl _⟩
  by_cases hb : blankQuery q
  · rw [if_pos hb]; exact hrefl
  · rw [if_neg hb]
    by_cases hg : isGenericQuery (pyStripS (pyLower q))
    · simp only [hg, if_true]; exact hrefl
    · simp only [hg, Bool.false_eq_true, if_false]
      by_cases hz : totalRecords (filterPipeline data (pyStripS (pyLower q))) = 0
      · rw [if_pos hz]; exact hrefl
      · rw [if_neg hz]; exact filterPipeline_inv data _

/-- C10.  Filtering never invents rows: every row of every table returned by
`filter_data_by_query` — whether produced by the direct substring masks, the
cross-propagation unions (concatenation plus duplicate removal), or the
fallback to the original data — is a row of the corresponding input
table. -/
theorem filter_never_invents_rows (data : DataCollection) (q : String)
    (k : DSName) (t : Table) (r : Row)
    (ht : getDS (filter_data_by_query data q) k = some t) (hr : r ∈ t.rows) :
    ∃ t0, getDS data k = some t0 ∧ r ∈ t0.rows :=
  (filter_data_inv data q).1 k t r ht hr

/-- Witness for C10: a concrete accounts table filtered by a matching
term. -/
theorem filter_never_invents_rows_witness :
    ∃ t0, getDS ⟨some ⟨["username"], [[("username", "alice")]]⟩, none, none, none⟩
        DSName.accounts = some t0 ∧ [("username", "alice")] ∈ t0.rows :=
  filter_never_invents_rows
    ⟨some ⟨["username"], [[("username", "alice")]]⟩, none, none, none⟩
    "alice" DSName.accounts ⟨["username"], [[("username", "alice")]]⟩
    [("username", "alice")] (by decide) (by decide)

/-! ### C7 — output keys -/

/-- Keys present in `fd` are present in `data`. -/
def KeySub (fd data : DataCollection) : Prop :=
  ∀ k, (getDS fd k).isSome → (getDS data k).isSome

theorem evolve_isSome {src old nw : Option Table} (h : EntryEvolves src old nw)
    (hold : old.isSome → src.isSome) : nw.isSome → src.isSome := by
  cases h with
  | same => exact hold
  | repl V f cols hsrc => intro _; rw [hsrc]; rfl
  | union V FV f cols hsrc _ => intro _; rw [hsrc]; rfl

theorem keySub_of_shape (data fd nd : DataCollection)
    (ha : nd.accounts = fd.accounts) (hw : nd.words = fd.words)
    (hv : EntryEvolves data.videos fd.videos nd.videos)
    (hs : EntryEvolves data.subtitles fd.subtitles nd.subtitles)
    (hk : KeySub fd data) : KeySub nd data := by
  intro k
  cases k
  · rw [show getDS nd DSName.accounts = fd.accounts from ha]
    exact hk DSName.accounts
  · exact evolve_isSome hv (hk DSName.videos)
  · rw [show getDS nd DSName.words = fd.words from hw]
    exact hk DSName.words
  · exact evolve_isSome hs (hk DSName.subtitles)

theorem directOne_isSome (cols : List String) (ql : String) (o : Option Table) :
    (directOne cols ql o).isSome → o.isSome := by
  rcases o with _ | t0
  · simp [directOne]
  · intro _; rfl

theorem directFilter_keySub (data : DataCollection) (ql : String) :
    KeySub (directFilter data ql) data := by
  intro k
  cases k
  · exact directOne_isSome accountsSearchCols ql data.accounts
  · exact directOne_isSome videosSearchCols ql data.videos
  · exact directOne_isSome wordsSearchCols ql data.words
  · exact directOne_isSome subtitlesSearchCols ql data.subtitles

theorem crossPropagate_keySub (data fd : DataCollection) (ql : String)
    (hk : KeySub fd data) : KeySub (crossPropagate data fd ql) data := by
  have h1 : KeySub (stepWordsToVideos data fd ql) data := by
    obtain ⟨ha, hw, hv, hs⟩ := stepWordsToVideos_shape data fd ql
    exact keySub_of_shape data fd _ ha hw hv hs hk
  unfold crossPropagate
  by_cases hke : accountsUsernameKeyError (stepWordsToVideos data fd ql)
  · rw [if_pos hke]; exact h1
  · rw [if_neg hke]
    have h2 : KeySub (stepAccountsToVideos data (stepWordsToVideos data fd ql)) data := by
      obtain ⟨ha, hw, hv, hs⟩ := stepAccountsToVideos_shape data _
      exact keySub_of_shape data _ _ ha hw hv hs h1
    have h3 : KeySub (stepSubtitlesToVideos data
        (stepAccountsToVideos data (stepWordsToVideos data fd ql))) data := by
      obtain ⟨ha, hw, hv, hs⟩ := stepSubtitlesToVideos_shape data _
      exact keySub_of_shape data _ _ ha hw hv hs h2
    obtain ⟨ha, hw, hv, hs⟩ := stepAccountsToSubtitles_shape data
      (stepSubtitlesToVideos data (stepAccountsToVideos data (stepWordsToVideos data fd ql)))
    exact keySub_of_shape data _ _ ha hw hv hs h3

theorem fillOne_isSome (d f : Option Table) (h : f.isSome → d.isSome) :
    (fillOne d f).isSome → d.isSome := by
  rcases d with _ | d0 <;> rcases f with _ | f0
  · simp [fillOne]
  · simp [fillOne] at h ⊢
  · intro _; rfl
  · intro _; rfl

theorem fillMissing_keySub (data fd : DataCollection) (hk : KeySub fd data) :
    KeySub (fillMissing data fd) data := by
  intro k
  cases k
  · exact fillOne_isSome data.accounts fd.accounts (hk DSName.accounts)
  · exact fillOne_isSome data.videos fd.videos (hk DSName.videos)
  · exact fillOne_isSome data.words fd.words (hk DSName.words)
  · exact fillOne_isSome data.subtitles fd.subtitles (hk DSName.subtitles)

theorem filter_data_keySub (data : DataCollection) (q : String) :
    KeySub (filter_data_by_query data q) data := by
  unfold filter_data_by_query
  have hid : KeySub data data := fun k h => h
  by_cases hb : blankQuery q
  · rw [if_pos hb]; exact hid
  · rw [if_neg hb]
    by_cases hg : isGenericQuery (pyStripS (pyLower q))
    · simp only [hg, if_true]; exact hid
    · simp only [hg, Bool.false_eq_true, if_false]
      by_cases hz : totalRecords (filterPipeline data (pyStripS (pyLower q))) = 0
      · rw [if_pos hz]; exact hid
      · rw [if_neg hz]
        exact fillMissing_keySub data _
          (crossPropagate_keySub data _ _ (directFilter_keySub data _))

theorem filter_eq_pipeline (data : DataCollection) (q : String)
    (hb : blankQuery q = false)
    (hg : isGenericQuery (pyStripS (pyLower q)) = false)
    (hnz : totalRecords (filterPipeline data (pyStripS (pyLower q))) ≠ 0) :
    filter_data_by_query data q = filterPipeline data (pyStripS (pyLower q)) := by
  unfold filter_data_by_query
  rw [if_neg (by simp [hb])]
  simp only [hg, Bool.false_eq_true, if_false]
  rw [if_neg hnz]

theorem fillOne_of_not_matched (d f : Option Table) (hd : d.isSome)
    (hf : fdNonempty f = false) :
    ∃ t, fillOne d f = some t ∧ t.rows = [] := by
  rcases d with _ | d0
  · exact absurd hd (by simp)
  · rcases f with _ | f0
    · exact ⟨⟨[], []⟩, rfl, rfl⟩
    · refine ⟨f0, rfl, ?_⟩
      simpa [fdNonempty, List.isEmpty_iff] using hf

theorem getDS_fillMissing (data fd : DataCollection) (k : DSName) :
    getDS (fillMissing data fd) k = fillOne (getDS data k) (getDS fd k) := by
  cases k <;> rfl

/-- C7 (amended).  Output-key completeness: the filter's output never
contains a dataset key absent from the input; and — provided at least one
row survived the pipeline, i.e. the no-match fallback to the original data
did not fire — every dataset present in the input whose entry after direct
filtering and cross-propagation holds no positively matched row comes out
mapped to a table with no rows; the key is never omitted. -/
theorem filter_output_keys (data : DataCollection) (q : String)
    (hb : blankQuery q = false)
    (hg : isGenericQuery (pyStripS (pyLower q)) = false)
    (hnz : totalRecords (filterPipeline data (pyStripS (pyLower q))) ≠ 0) :
    (∀ k, (getDS (filter_data_by_query data q) k).isSome → (getDS data k).isSome) ∧
    (∀ k, (getDS data k).isSome →
      fdNonempty (getDS (crossPropagate data
          (directFilter data (pyStripS (pyLower q))) (pyStripS (pyLower q))) k) = false →
      ∃ t, getDS (filter_data_by_query data q) k = some t ∧ t.rows = []) := by
  refine ⟨filter_data_keySub data q, ?_⟩
  intro k hk hempty
  rw [filter_eq_pipeline data q hb hg hnz]
  unfold filterPipeline
  rw [getDS_fillMissing]
  exact fillOne_of_not_matched _ _ hk hempty

/-- Witness for C7 (amended): filtering a two-row accounts table by a term
matching one row; the `videos` key is present in the input but gets no
match; it comes out as an empty table. -/
theorem filter_output_keys_witness :
    (∀ k, (getDS (filter_data_by_query
        ⟨some ⟨["username"], [[("username", "alice")], [("username", "bob")]]⟩,
          some ⟨["username", "url"], [[("username", "carol"), ("url", "u9")]]⟩,
          none, none⟩ "alice") k).isSome →
      (getDS ⟨some ⟨["username"], [[("username", "alice")], [("username", "bob")]]⟩,
          some ⟨["username", "url"], [[("username", "carol"), ("url", "u9")]]⟩,
          none, none⟩ k).isSome) ∧
    (∀ k, (getDS ⟨some ⟨["username"], [[("username", "alice")], [("username", "bob")]]⟩,
          some ⟨["username", "url"], [[("username", "carol"), ("url", "u9")]]⟩,
          none, none⟩ k).isSome →
      fdNonempty (getDS (crossPropagate
          ⟨some ⟨["username"], [[("username", "alice")], [("username", "bob")]]⟩,
            some ⟨["username", "url"], [[("username", "carol"), ("url", "u9")]]⟩,
            none, none⟩
          (directFilter
            ⟨some ⟨["username"], [[("username", "alice")], [("username", "bob")]]⟩,
              some ⟨["username", "url"], [[("username", "carol"), ("url", "u9")]]⟩,
              none, none⟩ (pyStripS (pyLower "alice")))
          (pyStripS (pyLower "alice"))) k) = false →
      ∃ t, getDS (filter_data_by_query
        ⟨some ⟨["username"], [[("username", "alice")], [("username", "bob")]]⟩,
          some ⟨["username", "url"], [[("username", "carol"), ("url", "u9")]]⟩,
          none, none⟩ "alice") k = some t ∧ t.rows = []) :=
  filter_output_keys _ "alice" (by decide) (by decide) (by decide)

/-- Counterexample to C7 as frozen: for the specific, non-blank, non-generic
term "zzzz" that matches nothing, the no-match fallback returns the original
data, so the accounts key — present in the input and excluded from every
positive match — is mapped to its original one-row table, not to an empty
table. -/
theorem filter_output_keys_counterexample :
    blankQuery "zzzz" = false ∧
    isGenericQuery (pyStripS (pyLower "zzzz")) = false ∧
    (∀ r ∈ [[("username", "alice")]],
      maskHit ["username"] accountsSearchCols (pyStripS (pyLower "zzzz")) r = false) ∧
    getDS (filter_data_by_query
        ⟨some ⟨["username"], [[("username", "alice")]]⟩, none, none, none⟩ "zzzz")
      DSName.accounts = some ⟨["username"], [[("username", "alice")]]⟩ ∧
    ([[("username", "alice")]] : List Row) ≠ [] := by decide

/-! ### C6 — idempotence on a no-match term -/

theorem stepWordsToVideos_of_empty (data fd : DataCollection) (ql : String)
    (hw : fdNonempty fd.words = false) : stepWordsToVideos data fd ql = fd := by
  unfold stepWordsToVideos
  rw [hw]
  simp

theorem stepAccountsToVideos_of_empty (data fd : DataCollection)
    (ha : fdNonempty fd.accounts = false) : stepAccountsToVideos data fd = fd := by
  unfold stepAccountsToVideos
  rcases hfa : fd.accounts with _ | A
  · simp only [hfa]
  · rw [hfa] at ha
    simp only [fdNonempty, Bool.not_eq_false'] at ha
    simp only [hfa, ha, Bool.not_true, Bool.false_eq_true, if_false]

theorem stepSubtitlesToVideos_of_empty (data fd : DataCollection)
    (hs : fdNonempty fd.subtitles = false) : stepSubtitlesToVideos data fd = fd := by
  unfold stepSubtitlesToVideos
  rcases hfs : fd.subtitles with _ | FS
  · simp only [hfs]
  · rw [hfs] at hs
    simp only [fdNonempty, Bool.not_eq_false'] at hs
    simp only [hfs, hs, Bool.not_true, Bool.false_and, Bool.false_eq_true, if_false]

theorem stepAccountsToSubtitles_of_empty (data fd : DataCollection)
    (ha : fdNonempty fd.accounts = false) : stepAccountsToSubtitles data fd = fd := by
  unfold stepAccountsToSubtitles
  rcases hfa : fd.accounts with _ | A
  · simp only [hfa]
  · rw [hfa] at ha
    simp only [fdNonempty, Bool.not_eq_false'] at ha
    simp only [hfa, ha, Bool.not_true, Bool.false_eq_true, if_false]

theorem accountsKeyError_of_empty (fd : DataCollection)
    (ha : fdNonempty fd.accounts = false) : accountsUsernameKeyError fd = false := by
  unfold accountsUsernameKeyError
  rcases hfa : fd.accounts with _ | A
  · rfl
  · rw [hfa] at ha
    simp only [fdNonempty, Bool.not_eq_false'] at ha
    simp [ha]

theorem crossPropagate_of_allEmpty (data fd : DataCollection) (ql : String)
    (hw : fdNonempty fd.words = false) (ha : fdNonempty fd.accounts = false)
    (hs : fdNonempty fd.subtitles = false) : crossPropagate data fd ql = fd := by
  unfold crossPropagate
  rw [stepWordsToVideos_of_empty data fd ql hw]
  rw [if_neg (by simp [accountsKeyError_of_empty fd ha])]
  rw [stepAccountsToVideos_of_empty data fd ha,
    stepSubtitlesToVideos_of_empty data fd hs,
    stepAccountsToSubtitles_of_empty data fd ha]

theorem directOne_empty_of_nomatch (cols : List String) (ql : String) (o : Option Table)
    (h : ∀ t, o = some t → ∀ r ∈ t.rows, maskHit t.cols cols ql r = false) :
    fdNonempty (directOne cols ql o) = false := by
  rcases o with _ | t0
  · rfl
  · simp only [directOne]
    by_cases he : t0.rows.isEmpty
    · simp [he, fdNonempty]
    · simp only [he, Bool.false_eq_true, if_false]
      have hnil : t0.rows.filter (maskHit t0.cols cols ql) = [] :=
        List.filter_eq_nil_iff.mpr (fun a ha => by simp [h t0 rfl a ha])
      simp [fdNonempty, hnil]

theorem optLen_fillOne_zero (d f : Option Table) (hf : fdNonempty f = false) :
    optLen (fillOne d f) = 0 := by
  rcases f with _ | f0
  · rcases d with _ | d0
    · rfl
    · rfl
  · have : f0.rows = [] := by simpa [fdNonempty, List.isEmpty_iff] using hf
    rcases d with _ | d0 <;> simp [fillOne, optLen, this]

/-- C6.  Idempotence on a no-match term: for a non-blank, non-generic term
whose direct mask matches no row of any dataset, `filter_data_by_query`
falls back to the original unfiltered data, so applying it twice with that
term equals applying it once. -/
theorem filter_idempotent_on_no_match (data : DataCollection) (q : String)
    (hb : blankQuery q = false)
    (hg : isGenericQuery (pyStripS (pyLower q)) = false)
    (hm : ∀ k t, getDS data k = some t →
      ∀ r ∈ t.rows, maskHit t.cols (searchColsOf k) (pyStripS (pyLower q)) r = false) :
    filter_data_by_query data q = data ∧
    filter_data_by_query (filter_data_by_query data q) q = filter_data_by_query data q := by
  have hacc : fdNonempty (directFilter data (pyStripS (pyLower q))).accounts = false :=
    directOne_empty_of_nomatch _ _ _ (fun t ht => hm DSName.accounts t ht)
  have hvid : fdNonempty (directFilter data (pyStripS (pyLower q))).videos = false :=
    directOne_empty_of_nomatch _ _ _ (fun t ht => hm DSName.videos t ht)
  have hwor : fdNonempty (directFilter data (pyStripS (pyLower q))).words = false :=
    directOne_empty_of_nomatch _ _ _ (fun t ht => hm DSName.words t ht)
  have hsub : fdNonempty (directFilter data (pyStripS (pyLower q))).subtitles = false :=
    directOne_empty_of_nomatch _ _ _ (fun t ht => hm DSName.subtitles t ht)
  have hcp : crossPropagate data (directFilter data (pyStripS (pyLower q)))
      (pyStripS (pyLower q)) = directFilter data (pyStripS (pyLower q)) :=
    crossPropagate_of_allEmpty data _ _ hwor hacc hsub
  have htot : totalRecords (filterPipeline data (pyStripS (pyLower q))) = 0 := by
    unfold filterPipeline
    rw [hcp]
    show optLen (fillOne data.accounts _) + optLen (fillOne data.videos _) +
      optLen (fillOne data.words _) + optLen (fillOne data.subtitles _) = 0
    rw [optLen_fillOne_zero _ _ hacc, optLen_fillOne_zero _ _ hvid,
      optLen_fillOne_zero _ _ hwor, optLen_fillOne_zero _ _ hsub]
  have hfe : filter_data_by_query data q = data := by
    unfold filter_data_by_query
    rw [if_neg (by simp [hb])]
    simp only [hg, Bool.false_eq_true, if_false]
    rw [if_pos htot]
  exact ⟨hfe, by rw [hfe]; exact hfe⟩

/-- Witness for C6 at a one-row accounts collection and the no-match term
"zzzz". -/
theorem filter_idempotent_on_no_match_witness :
    filter_data_by_query
        ⟨some ⟨["username"], [[("username", "alice")]]⟩, none, none, none⟩ "zzzz" =
      ⟨some ⟨["username"], [[("username", "alice")]]⟩, none, none, none⟩ ∧
    filter_data_by_query (filter_data_by_query
        ⟨some ⟨["username"], [[("username", "alice")]]⟩, none, none, none⟩ "zzzz") "zzzz" =
      filter_data_by_query
        ⟨some ⟨["username"], [[("username", "alice")]]⟩, none, none, none⟩ "zzzz" :=
  filter_idempotent_on_no_match
    ⟨some ⟨["username"], [[("username", "alice")]]⟩, none, none, none⟩ "zzzz"
    (by decide) (by decide)
    (by
      intro k t ht r hr
      cases k <;> simp only [getDS] at ht
      · obtain rfl := Option.some_inj.mp ht
        rw [List.mem_singleton.mp hr]
        decide
      · exact absurd ht (by simp)
      · exact absurd ht (by simp)
      · exact absurd ht (by simp))

/-! ### C5 — filter_info round trip -/

/-- C5.  Filter-info round trip: for a non-blank query that does not hit the
early no-data return, `generate_visualization` tags the payload with
`filter_info = {query, original_records, filtered_records, filtered: true}`
where the two counts are the summed row counts of the input and of the
filtered output; no dataset grows under filtering, and the difference
`original_records - filtered_records` equals the number of excluded rows
summed across the four datasets. -/
theorem filter_info_round_trip (g : String → DataCollection → String → Payload)
    (data : DataCollection) (q : String) (vt : Option String)
    (hq1 : q.isEmpty = false) (hq2 : (pyStripS q).isEmpty = false)
    (hne : earlyNoData data q = false) :
    (generate_visualization g data q vt).filter_info =
      some ⟨some q, some (totalRecords data),
        some (totalRecords (filter_data_by_query data q)), true⟩ ∧
    (∀ k, optLen (getDS (filter_data_by_query data q) k) ≤ optLen (getDS data k)) ∧
    totalRecords data - totalRecords (filter_data_by_query data q) =
      (optLen data.accounts - optLen (filter_data_by_query data q).accounts) +
      (optLen data.videos - optLen (filter_data_by_query data q).videos) +
      (optLen data.words - optLen (filter_data_by_query data q).words) +
      (optLen data.subtitles - optLen (filter_data_by_query data q).subtitles) := by
  refine ⟨?_, (filter_data_inv data q).2, ?_⟩
  · unfold generate_visualization
    simp only [hne, Bool.false_eq_true, if_false, hq1, hq2, Bool.not_false,
      Bool.and_self, if_true]
    repeat' split
    all_goals rfl
  · have h := (filter_data_inv data q).2
    have ha := h DSName.accounts
    have hv := h DSName.videos
    have hw := h DSName.words
    have hs := h DSName.subtitles
    simp only [getDS] at ha hv hw hs
    unfold totalRecords
    omega

/-- Witness for C5: two accounts rows, one matching the term "alice". -/
theorem filter_info_round_trip_witness :
    (generate_visualization (fun _ _ _ => ⟨none, none, none, none, none, none⟩)
      ⟨some ⟨["username"], [[("username", "alice")], [("username", "bob")]]⟩,
        none, none, none⟩ "alice" none).filter_info =
      some ⟨some "alice",
        some (totalRecords ⟨some ⟨["username"],
          [[("username", "alice")], [("username", "bob")]]⟩, none, none, none⟩),
        some (totalRecords (filter_data_by_query
          ⟨some ⟨["username"], [[("username", "alice")], [("username", "bob")]]⟩,
            none, none, none⟩ "alice")), true⟩ ∧
    (∀ k, optLen (getDS (filter_data_by_query
        ⟨some ⟨["username"], [[("username", "alice")], [("username", "bob")]]⟩,
          none, none, none⟩ "alice") k) ≤
      optLen (getDS ⟨some ⟨["username"],
        [[("username", "alice")], [("username", "bob")]]⟩, none, none, none⟩ k)) ∧
    totalRecords ⟨some ⟨["username"], [[("username", "alice")], [("username", "bob")]]⟩,
        none, none, none⟩ -
      totalRecords (filter_data_by_query
        ⟨some ⟨["username"], [[("username", "alice")], [("username", "bob")]]⟩,
          none, none, none⟩ "alice") =
      (optLen (⟨some ⟨["username"], [[("username", "alice")], [("username", "bob")]]⟩,
          none, none, none⟩ : DataCollection).accounts -
        optLen (filter_data_by_query
          ⟨some ⟨["username"], [[("username", "alice")], [("username", "bob")]]⟩,
            none, none, none⟩ "alice").accounts) +
      (optLen (⟨some ⟨["username"], [[("username", "alice")], [("username", "bob")]]⟩,
          none, none, none⟩ : DataCollection).videos -
        optLen (filter_data_by_query
          ⟨some ⟨["username"], [[("username", "alice")], [("username", "bob")]]⟩,
            none, none, none⟩ "alice").videos) +
      (optLen (⟨some ⟨["username"], [[("username", "alice")], [("username", "bob")]]⟩,
          none, none, none⟩ : DataCollection).words -
        optLen (filter_data_by_query
          ⟨some ⟨["username"], [[("username", "alice")], [("username", "bob")]]⟩,
            none, none, none⟩ "alice").words) +
      (optLen (⟨some ⟨["username"], [[("username", "alice")], [("username", "bob")]]⟩,
          none, none, none⟩ : DataCollection).subtitles -
        optLen (filter_data_by_query
          ⟨some ⟨["username"], [[("username", "alice")], [("username", "bob")]]⟩,
            none, none, none⟩ "alice").subtitles) :=
  filter_info_round_trip _ _ "alice" none (by decide) (by decide) (by decide)

/-! ### C1 — cross-propagation recovery through subtitles URLs -/

theorem isEmpty_false_of_mem {α} {a : α} {l : List α} (h : a ∈ l) :
    l.isEmpty = false := by
  cases l
  · exact absurd h (List.not_mem_nil a)
  · rfl

theorem directOne_eq_of_ne (cols : List String) (ql : String) (t : Table)
    (h : t.rows.isEmpty = false) :
    directOne cols ql (some t) = some ⟨t.cols, t.rows.filter (maskHit t.cols cols ql)⟩ := by
  simp [directOne, h]

theorem fillOne_some (d : Option Table) (t : Table) : fillOne d (some t) = some t := by
  cases d <;> rfl

theorem stepAccountsToVideos_only_videos (data fd : DataCollection) :
    (stepAccountsToVideos data fd).accounts = fd.accounts ∧
    (stepAccountsToVideos data fd).words = fd.words ∧
    (stepAccountsToVideos data fd).subtitles = fd.subtitles := by
  simp only [stepAccountsToVideos]
  repeat' split
  all_goals exact ⟨rfl, rfl, rfl⟩

theorem stepSubtitlesToVideos_only_videos (data fd : DataCollection) :
    (stepSubtitlesToVideos data fd).accounts = fd.accounts ∧
    (stepSubtitlesToVideos data fd).words = fd.words ∧
    (stepSubtitlesToVideos data fd).subtitles = fd.subtitles := by
  simp only [stepSubtitlesToVideos]
  repeat' split
  all_goals exact ⟨rfl, rfl, rfl⟩

theorem stepAccountsToSubtitles_only_subtitles (data fd : DataCollection) :
    (stepAccountsToSubtitles data fd).accounts = fd.accounts ∧
    (stepAccountsToSubtitles data fd).words = fd.words ∧
    (stepAccountsToSubtitles data fd).videos = fd.videos := by
  simp only [stepAccountsToSubtitles]
  repeat' split
  all_goals exact ⟨rfl, rfl, rfl⟩

theorem stepAccountsToVideos_videos_mem (data fd : DataCollection) (v : Row)
    (FV : Table) (hfv : fd.videos = some FV) (hvm : v ∈ FV.rows) :
    ∃ VT, (stepAccountsToVideos data fd).videos = some VT ∧ v ∈ VT.rows := by
  simp only [stepAccountsToVideos]
  repeat' split
  all_goals try exact ⟨FV, hfv, hvm⟩
  all_goals try
    exact ⟨_, rfl, by rw [List.mem_dedup]; exact List.mem_append_left _ (by simp_all)⟩
  all_goals exact ⟨_, rfl, by exfalso; simp_all⟩

theorem stepSubtitlesToVideos_videos_mem (data fd : DataCollection) (v : Row)
    (FV : Table) (hfv : fd.videos = some FV) (hvm : v ∈ FV.rows) :
    ∃ VT, (stepSubtitlesToVideos data fd).videos = some VT ∧ v ∈ VT.rows := by
  simp only [stepSubtitlesToVideos]
  repeat' split
  all_goals try exact ⟨FV, hfv, hvm⟩
  all_goals try
    exact ⟨_, rfl, by rw [List.mem_dedup]; exact List.mem_append_left _ (by simp_all)⟩
  all_goals exact ⟨_, rfl, by exfalso; simp_all⟩

theorem stepAccountsToSubtitles_subtitles_supset (data fd : DataCollection)
    (FS : Table) (hfs : fd.subtitles = some FS) :
    ∃ ST, (stepAccountsToSubtitles data fd).subtitles = some ST ∧
      ∀ r ∈ FS.rows, r ∈ ST.rows := by
  simp only [stepAccountsToSubtitles]
  repeat' split
  all_goals try exact ⟨FS, hfs, fun _ hr => hr⟩
  all_goals try
    exact ⟨_, rfl, fun r hr => by
      rw [List.mem_dedup]; exact List.mem_append_left _ (by simp_all)⟩
  all_goals exact ⟨_, rfl, fun r hr => by exfalso; simp_all⟩

theorem stepWordsToVideos_recovers (data fd : DataCollection) (ql : String)
    (FW V S : Table) (s v : Row) (u : String)
    (hfw : fd.words = some FW) (hfwne : FW.rows.isEmpty = false)
    (hfv : fdNonempty fd.videos = false)
    (hS : data.subtitles = some S) (htext : S.cols.contains "text" = true)
    (hSurl : S.cols.contains "url" = true)
    (hs : s ∈ S.rows) (hsmatch : strContains (pyLower (cellStr s "text")) ql = true)
    (hsurl : cellVal s "url" = some u)
    (hV : data.videos = some V)
    (hVurl : V.cols.contains "url" = true)
    (hv : v ∈ V.rows) (hvurl : cellVal v "url" = some u) :
    (stepWordsToVideos data fd ql).videos =
      some ⟨V.cols, V.rows.filter (fun r =>
        ((S.rows.filter (fun r2 => strContains (pyLower (cellStr r2 "text")) ql)).filterMap
          (fun r2 => cellVal r2 "url")).contains (cellStr r "url"))⟩ ∧
    (stepWordsToVideos data fd ql).subtitles =
      some ⟨S.cols, S.rows.filter
        (fun r2 => strContains (pyLower (cellStr r2 "text")) ql)⟩ := by
  have hcond1 : (fdNonempty fd.words && !fdNonempty fd.videos) = true := by
    rw [hfv]
    simp [fdNonempty, hfw, hfwne]
  have hmatch_mem : s ∈ S.rows.filter
      (fun r2 => strContains (pyLower (cellStr r2 "text")) ql) :=
    List.mem_filter.mpr ⟨hs, hsmatch⟩
  have hmatch_ne := isEmpty_false_of_mem hmatch_mem
  have hu_mem : u ∈ (S.rows.filter
      (fun r2 => strContains (pyLower (cellStr r2 "text")) ql)).filterMap
      (fun r2 => cellVal r2 "url") :=
    List.mem_filterMap.mpr ⟨s, hmatch_mem, hsurl⟩
  have hurls_ne := isEmpty_false_of_mem hu_mem
  have hSrows_ne := isEmpty_false_of_mem hs
  have hVrows_ne := isEmpty_false_of_mem hv
  have hwr_mem : v ∈ V.rows.filter (fun r =>
      ((S.rows.filter (fun r2 => strContains (pyLower (cellStr r2 "text")) ql)).filterMap
        (fun r2 => cellVal r2 "url")).contains (cellStr r "url")) :=
    List.mem_filter.mpr ⟨hv, by
      simp only [cellStr, hvurl, Option.getD_some]
      exact contains_mem.mpr hu_mem⟩
  have hwr_ne := isEmpty_false_of_mem hwr_mem
  simp only [stepWordsToVideos, hcond1, if_true, hS, hV]
  simp only [hSrows_ne, htext, hmatch_ne, hSurl, hurls_ne, hVrows_ne, hVurl, hwr_ne,
    Bool.not_false, Bool.and_self, Bool.true_and, Bool.and_true, if_true]
  exact ⟨trivial, trivial⟩

/-- C1.  Cross-propagation recovery: when the words table matches the term,
the videos table has no direct match in its searchable text columns, some
subtitles row's text contains the term and carries URL `u`, and some videos
row carries the same URL `u`, then filtering on the term returns a videos
table containing that video row (recovered through the subtitles URL key)
together with all the text-matching subtitles rows. -/
theorem filter_cross_propagation_recovery (data : DataCollection) (q ql : String)
    (W V S : Table) (s v : Row) (u : String)
    (hql : pyStripS (pyLower q) = ql)
    (hb : blankQuery q = false)
    (hg : isGenericQuery ql = false)
    (hW : data.words = some W)
    (hWmatch : ∃ rw ∈ W.rows, maskHit W.cols wordsSearchCols ql rw = true)
    (hV : data.videos = some V)
    (hVnomatch : ∀ r ∈ V.rows, maskHit V.cols videosSearchCols ql r = false)
    (hVurl : V.cols.contains "url" = true)
    (hv : v ∈ V.rows) (hvurl : cellVal v "url" = some u)
    (hS : data.subtitles = some S)
    (htext : S.cols.contains "text" = true) (hSurl : S.cols.contains "url" = true)
    (hs : s ∈ S.rows) (hsmatch : strContains (pyLower (cellStr s "text")) ql = true)
    (hsurl : cellVal s "url" = some u) :
    ∃ VT ST, (filter_data_by_query data q).videos = some VT ∧ v ∈ VT.rows ∧
      (filter_data_by_query data q).subtitles = some ST ∧
      ∀ r ∈ S.rows, strContains (pyLower (cellStr r "text")) ql = true →
        r ∈ ST.rows := by
  subst hql
  have hWne : W.rows.isEmpty = false := by
    obtain ⟨rw, hrw, _⟩ := hWmatch
    exact isEmpty_false_of_mem hrw
  have hfd0w : (directFilter data (pyStripS (pyLower q))).words =
      some ⟨W.cols, W.rows.filter (maskHit W.cols wordsSearchCols (pyStripS (pyLower q)))⟩ := by
    show directOne wordsSearchCols (pyStripS (pyLower q)) data.words = _
    rw [hW]
    exact directOne_eq_of_ne _ _ _ hWne
  have hfd0w_ne : (W.rows.filter
      (maskHit W.cols wordsSearchCols (pyStripS (pyLower q)))).isEmpty = false := by
    obtain ⟨rw, hrw, hrwm⟩ := hWmatch
    exact isEmpty_false_of_mem (List.mem_filter.mpr ⟨hrw, hrwm⟩)
  have hVne : V.rows.isEmpty = false := isEmpty_false_of_mem hv
  have hfilnil : V.rows.filter (maskHit V.cols videosSearchCols (pyStripS (pyLower q))) = [] :=
    List.filter_eq_nil_iff.mpr (fun a ha => by simp [hVnomatch a ha])
  have hfd0v : (directFilter data (pyStripS (pyLower q))).videos = some ⟨V.cols, []⟩ := by
    show directOne videosSearchCols (pyStripS (pyLower q)) data.videos = _
    rw [hV, directOne_eq_of_ne _ _ _ hVne, hfilnil]
  have hfvEmpty : fdNonempty (directFilter data (pyStripS (pyLower q))).videos = false := by
    rw [hfd0v]
    rfl
  obtain ⟨hstepv, hsteps⟩ := stepWordsToVideos_recovers data
    (directFilter data (pyStripS (pyLower q))) (pyStripS (pyLower q))
    ⟨W.cols, W.rows.filter (maskHit W.cols wordsSearchCols (pyStripS (pyLower q)))⟩
    V S s v u hfd0w hfd0w_ne hfvEmpty hS htext hSurl hs hsmatch hsurl hV hVurl hv hvurl
  have hmatch_mem : s ∈ S.rows.filter
      (fun r2 => strContains (pyLower (cellStr r2 "text")) (pyStripS (pyLower q))) :=
    List.mem_filter.mpr ⟨hs, hsmatch⟩
  have hu_mem : u ∈ (S.rows.filter
      (fun r2 => strContains (pyLower (cellStr r2 "text")) (pyStripS (pyLower q)))).filterMap
      (fun r2 => cellVal r2 "url") :=
    List.mem_filterMap.mpr ⟨s, hmatch_mem, hsurl⟩
  have hv_wr : v ∈ V.rows.filter (fun r =>
      ((S.rows.filter (fun r2 => strContains (pyLower (cellStr r2 "text"))
        (pyStripS (pyLower q)))).filterMap
        (fun r2 => cellVal r2 "url")).contains (cellStr r "url")) :=
    List.mem_filter.mpr ⟨hv, by
      simp only [cellStr, hvurl, Option.getD_some]
      exact contains_mem.mpr hu_mem⟩
  have hcross : ∃ VT ST,
      (crossPropagate data (directFilter data (pyStripS (pyLower q)))
        (pyStripS (pyLower q))).videos = some VT ∧ v ∈ VT.rows ∧
      (crossPropagate data (directFilter data (pyStripS (pyLower q)))
        (pyStripS (pyLower q))).subtitles = some ST ∧
      ∀ r ∈ S.rows.filter
        (fun r2 => strContains (pyLower (cellStr r2 "text")) (pyStripS (pyLower q))),
        r ∈ ST.rows := by
    unfold crossPropagate
    by_cases hke : accountsUsernameKeyError (stepWordsToVideos data
        (directFilter data (pyStripS (pyLower q))) (pyStripS (pyLower q)))
    · rw [if_pos hke]
      exact ⟨_, _, hstepv, hv_wr, hsteps, fun r hr => hr⟩
    · rw [if_neg hke]
      obtain ⟨VT2, hVT2, hvVT2⟩ := stepAccountsToVideos_videos_mem data _ v _ hstepv hv_wr
      have hsub2 := (stepAccountsToVideos_only_videos data (stepWordsToVideos data
        (directFilter data (pyStripS (pyLower q))) (pyStripS (pyLower q)))).2.2
      obtain ⟨VT3, hVT3, hvVT3⟩ := stepSubtitlesToVideos_videos_mem data _ v VT2 hVT2 hvVT2
      have hsub3 := (stepSubtitlesToVideos_only_videos data
        (stepAccountsToVideos data (stepWordsToVideos data
          (directFilter data (pyStripS (pyLower q))) (pyStripS (pyLower q))))).2.2
      have hvid4 := (stepAccountsToSubtitles_only_subtitles data
        (stepSubtitlesToVideos data (stepAccountsToVideos data (stepWordsToVideos data
          (directFilter data (pyStripS (pyLower q))) (pyStripS (pyLower q)))))).2.2
      obtain ⟨ST4, hST4, hST4sup⟩ := stepAccountsToSubtitles_subtitles_supset data _
        ⟨S.cols, S.rows.filter
          (fun r2 => strContains (pyLower (cellStr r2 "text")) (pyStripS (pyLower q)))⟩
        (by rw [hsub3, hsub2]; exact hsteps)
      refine ⟨VT3, ST4, ?_, hvVT3, hST4, fun r hr => hST4sup r hr⟩
      rw [hvid4]
      exact hVT3
  obtain ⟨VT, ST, hcv, hvv, hcs, hss⟩ := hcross
  have hfillv : (filterPipeline data (pyStripS (pyLower q))).videos = some VT := by
    show fillOne data.videos (crossPropagate data
      (directFilter data (pyStripS (pyLower q))) (pyStripS (pyLower q))).videos = some VT
    rw [hcv]
    exact fillOne_some _ _
  have hfills : (filterPipeline data (pyStripS (pyLower q))).subtitles = some ST := by
    show fillOne data.subtitles (crossPropagate data
      (directFilter data (pyStripS (pyLower q))) (pyStripS (pyLower q))).subtitles = some ST
    rw [hcs]
    exact fillOne_some _ _
  have htot : totalRecords (filterPipeline data (pyStripS (pyLower q))) ≠ 0 := by
    have h1 : optLen (filterPipeline data (pyStripS (pyLower q))).videos ≠ 0 := by
      rw [hfillv]
      have := List.length_pos.mpr (List.ne_nil_of_mem hvv)
      simp only [optLen]
      omega
    unfold totalRecords
    omega
  rw [filter_eq_pipeline data q hb hg htot]
  exact ⟨VT, ST, hfillv, hvv, hfills,
    fun r hr hm => hss r (List.mem_filter.mpr ⟨hr, hm⟩)⟩

/-- Witness for C1: the words table holds "revolución", the videos table's
title does not, a subtitles row speaks the word at URL u1, and the video at
u1 is recovered. -/
theorem filter_cross_propagation_recovery_witness :
    ∃ VT ST,
      (filter_data_by_query
        ⟨none, some ⟨["url", "title"], [[("url", "u1"), ("title", "video uno")]]⟩,
          some ⟨["word", "sentimiento"], [[("word", "revolución"), ("sentimiento", "1")]]⟩,
          some ⟨["text", "url"], [[("text", "viva la revolución"), ("url", "u1")]]⟩⟩
        "revolución").videos = some VT ∧
      [("url", "u1"), ("title", "video uno")] ∈ VT.rows ∧
      (filter_data_by_query
        ⟨none, some ⟨["url", "title"], [[("url", "u1"), ("title", "video uno")]]⟩,
          some ⟨["word", "sentimiento"], [[("word", "revolución"), ("sentimiento", "1")]]⟩,
          some ⟨["text", "url"], [[("text", "viva la revolución"), ("url", "u1")]]⟩⟩
        "revolución").subtitles = some ST ∧
      ∀ r ∈ [[("text", "viva la revolución"), ("url", "u1")]],
        strContains (pyLower (cellStr r "text")) "revolución" = true → r ∈ ST.rows :=
  filter_cross_propagation_recovery
    ⟨none, some ⟨["url", "title"], [[("url", "u1"), ("title", "video uno")]]⟩,
      some ⟨["word", "sentimiento"], [[("word", "revolución"), ("sentimiento", "1")]]⟩,
      some ⟨["text", "url"], [[("text", "viva la revolución"), ("url", "u1")]]⟩⟩
    "revolución" "revolución"
    ⟨["word", "sentimiento"], [[("word", "revolución"), ("sentimiento", "1")]]⟩
    ⟨["url", "title"], [[("url", "u1"), ("title", "video uno")]]⟩
    ⟨["text", "url"], [[("text", "viva la revolución"), ("url", "u1")]]⟩
    [("text", "viva la revolución"), ("url", "u1")]
    [("url", "u1"), ("title", "video uno")] "u1"
    (by decide) (by decide) (by decide) (by decide) (by decide) (by decide)
    (by decide) (by decide) (by decide) (by decide) (by decide) (by decide)
    (by decide) (by decide) (by decide) (by decide)


/-! ### C9 — stopword-only queries extract nothing -/

/-- Can a match of this pattern begin directly with its capture (consuming
nothing first)?  True for a leading capture, also behind a skipped optional
article group. -/
def startsCapB : List PatTok → Bool
  | PatTok.cap _ :: _ => true
  | PatTok.art false :: ts => startsCapB ts
  | _ => false

/-- Well-formedness of the letter-capture patterns used by the extractor:
one trailing letter capture, never directly after a literal (in every
pattern of the source the capture follows a whitespace or article group). -/
def okPat : List PatTok → Bool
  | [PatTok.cap _] => true
  | PatTok.lit _ :: ts => okPat ts && !startsCapB ts
  | PatTok.ws :: ts => okPat ts
  | PatTok.art _ :: ts => okPat ts
  | _ => false

/-- A consumed prefix that ends with a whitespace character. -/
def SpaceEnded (pre : List Char) : Prop :=
  ∃ pre0 x, pre = pre0 ++ [x] ∧ isPySpace x = true

theorem dropLit_spec : ∀ (p cs r : List Char), dropLit p cs = some r → cs = p ++ r := by
  intro p
  induction p with
  | nil =>
    intro cs r h
    simpa [dropLit] using Option.some_inj.mp h
  | cons a ps ih =>
    intro cs r h
    cases cs with
    | nil => cases h
    | cons c cs2 =>
      simp only [dropLit] at h
      by_cases hc : c = a
      · rw [if_pos hc] at h
        rw [hc, List.cons_append]
        exact congrArg (a :: ·) (ih cs2 r h)
      · rw [if_neg hc] at h
        cases h

theorem artAfter_spec (a : String) (cs r : List Char) (h : artAfter a cs = some r) :
    ∃ sp, cs = a.toList ++ sp ++ r ∧ sp ≠ [] ∧ ∀ c ∈ sp, isPySpace c = true := by
  unfold artAfter at h
  rcases hd : dropLit a.toList cs with _ | cs1 <;> simp only [hd] at h
  · cases h
  · rw [List.span_eq_take_drop] at h
    simp only at h
    by_cases he : (cs1.takeWhile isPySpace).isEmpty
    · rw [if_pos he] at h
      cases h
    · rw [if_neg he] at h
      obtain rfl := Option.some_inj.mp h
      refine ⟨cs1.takeWhile isPySpace, ?_, ?_, fun c hc => List.mem_takeWhile_imp hc⟩
      · rw [dropLit_spec _ _ _ hd, List.append_assoc, List.takeWhile_append_dropWhile]
      · intro hnil
        rw [hnil] at he
        exact he rfl

theorem head_dropWhile_not {α} (p : α → Bool) :
    ∀ (l : List α) (x : α), (l.dropWhile p).head? = some x → p x = false := by
  intro l
  induction l with
  | nil => intro x h; cases h
  | cons a l ih =>
    intro x h
    by_cases ha : p a
    · rw [List.dropWhile_cons, if_pos ha] at h
      exact ih x h
    · rw [List.dropWhile_cons, if_neg ha] at h
      obtain rfl := Option.some_inj.mp h
      exact Bool.eq_false_iff.mpr ha

theorem firstSome_mem {α} : ∀ (l : List (Option α)) (v : α),
    firstSome l = some v → some v ∈ l := by
  intro l
  induction l with
  | nil => intro v h; cases h
  | cons o rest ih =>
    intro v h
    cases o with
    | some a =>
      simp only [firstSome] at h
      rw [h]
      exact List.mem_cons_self _ _
    | none =>
      simp only [firstSome] at h
      exact List.mem_cons_of_mem _ (ih v h)

theorem artCase_spec (a : String) (ts : List PatTok) (cs w rest : List Char)
    (ih : ∀ cs2 w2 rest2, matchToks ts cs2 = some (w2, rest2) →
      ∃ pre, cs2 = pre ++ w2 ++ rest2 ∧ w2 ≠ [] ∧ (∀ c ∈ w2, isSpLetter c = true) ∧
        (∀ x, rest2.head? = some x → isSpLetter x = false) ∧
        ((pre = [] ∧ startsCapB ts = true) ∨ SpaceEnded pre))
    (h : (match artAfter a cs with
          | some r => matchToks ts r
          | none => none) = some (w, rest)) :
    ∃ pre, cs = pre ++ w ++ rest ∧ w ≠ [] ∧ (∀ c ∈ w, isSpLetter c = true) ∧
      (∀ x, rest.head? = some x → isSpLetter x = false) ∧ SpaceEnded pre := by
  rcases ha : artAfter a cs with _ | r <;> simp only [ha] at h
  · cases h
  · obtain ⟨sp, hcs, hspne, hspspace⟩ := artAfter_spec a cs r ha
    obtain ⟨pre, heq, hw, hlet, hrest, hdisj⟩ := ih r w rest h
    refine ⟨a.toList ++ sp ++ pre, ?_, hw, hlet, hrest, ?_⟩
    · rw [hcs, heq]
      simp [List.append_assoc]
    · rcases hdisj with ⟨rfl, _⟩ | ⟨pre0, x, rfl, hx⟩
      · refine ⟨a.toList ++ sp.dropLast, sp.getLast hspne, ?_,
          hspspace _ (List.getLast_mem hspne)⟩
        rw [List.append_nil, List.append_assoc, List.dropLast_append_getLast hspne]
      · exact ⟨a.toList ++ sp ++ pre0, x, by simp [List.append_assoc], hx⟩

theorem matchToks_spec : ∀ (ts : List PatTok) (cs w rest : List Char),
    okPat ts = true → matchToks ts cs = some (w, rest) →
    ∃ pre, cs = pre ++ w ++ rest ∧ w ≠ [] ∧ (∀ c ∈ w, isSpLetter c = true) ∧
      (∀ x, rest.head? = some x → isSpLetter x = false) ∧
      ((pre = [] ∧ startsCapB ts = true) ∨ SpaceEnded pre) := by
  intro ts
  induction ts with
  | nil => intro cs w rest _ h; cases h
  | cons t ts ih =>
    intro cs w rest hok h
    cases t with
    | lit s =>
      have hok2 : okPat ts = true ∧ startsCapB ts = false := by
        have hb : (okPat ts && !startsCapB ts) = true := hok
        simpa [Bool.and_eq_true, Bool.not_eq_true'] using hb
      simp only [matchToks] at h
      rcases hd : dropLit s.toList cs with _ | cs1 <;> simp only [hd] at h
      · cases h
      · obtain ⟨pre, heq, hw, hlet, hrest, hdisj⟩ := ih cs1 w rest hok2.1 h
        refine ⟨s.toList ++ pre, ?_, hw, hlet, hrest, ?_⟩
        · rw [dropLit_spec _ _ _ hd, heq]
          simp [List.append_assoc]
        · rcases hdisj with ⟨rfl, hsc⟩ | ⟨pre0, x, rfl, hx⟩
          · rw [hsc] at hok2
            exact absurd hok2.2 (by simp)
          · exact Or.inr ⟨s.toList ++ pre0, x, by simp [List.append_assoc], hx⟩
    | ws =>
      have hokts : okPat ts = true := hok
      simp only [matchToks, List.span_eq_take_drop] at h
      by_cases he : (cs.takeWhile isPySpace).isEmpty
      · rw [if_pos he] at h
        cases h
      · rw [if_neg he] at h
        obtain ⟨pre, heq, hw, hlet, hrest, hdisj⟩ := ih _ w rest hokts h
        have hne : cs.takeWhile isPySpace ≠ [] := by
          simpa [List.isEmpty_iff] using he
        refine ⟨cs.takeWhile isPySpace ++ pre, ?_, hw, hlet, hrest, Or.inr ?_⟩
        · calc cs = cs.takeWhile isPySpace ++ cs.dropWhile isPySpace :=
              (List.takeWhile_append_dropWhile ..).symm
            _ = cs.takeWhile isPySpace ++ (pre ++ w ++ rest) := by rw [heq]
            _ = cs.takeWhile isPySpace ++ pre ++ w ++ rest := by
              simp [List.append_assoc]
        · rcases hdisj with ⟨rfl, _⟩ | ⟨pre0, x, rfl, hx⟩
          · refine ⟨(cs.takeWhile isPySpace).dropLast, (cs.takeWhile isPySpace).getLast hne,
              ?_, List.mem_takeWhile_imp (List.getLast_mem hne)⟩
            rw [List.append_nil]
            exact (List.dropLast_append_getLast hne).symm
          · exact ⟨cs.takeWhile isPySpace ++ pre0, x, by simp [List.append_assoc], hx⟩
    | art req =>
      have hokts : okPat ts = true := hok
      have ih2 : ∀ cs2 w2 rest2, matchToks ts cs2 = some (w2, rest2) →
          ∃ pre, cs2 = pre ++ w2 ++ rest2 ∧ w2 ≠ [] ∧ (∀ c ∈ w2, isSpLetter c = true) ∧
            (∀ x, rest2.head? = some x → isSpLetter x = false) ∧
            ((pre = [] ∧ startsCapB ts = true) ∨ SpaceEnded pre) :=
        fun cs2 w2 rest2 h2 => ih cs2 w2 rest2 hokts h2
      simp only [matchToks] at h
      have hmem := firstSome_mem _ _ h
      simp only [List.mem_cons, List.not_mem_nil, or_false] at hmem
      rcases hmem with h1 | h1 | h1 | h1 | h1
      · obtain ⟨pre, h2, h3, h4, h5, h6⟩ := artCase_spec "la" ts cs w rest ih2 h1.symm
        exact ⟨pre, h2, h3, h4, h5, Or.inr h6⟩
      · obtain ⟨pre, h2, h3, h4, h5, h6⟩ := artCase_spec "el" ts cs w rest ih2 h1.symm
        exact ⟨pre, h2, h3, h4, h5, Or.inr h6⟩
      · obtain ⟨pre, h2, h3, h4, h5, h6⟩ := artCase_spec "una" ts cs w rest ih2 h1.symm
        exact ⟨pre, h2, h3, h4, h5, Or.inr h6⟩
      · obtain ⟨pre, h2, h3, h4, h5, h6⟩ := artCase_spec "un" ts cs w rest ih2 h1.symm
        exact ⟨pre, h2, h3, h4, h5, Or.inr h6⟩
      · cases req with
        | true => cases h1
        | false =>
          obtain ⟨pre, h2, h3, h4, h5, h6⟩ := ih2 cs w rest h1.symm
          refine ⟨pre, h2, h3, h4, h5, ?_⟩
          rcases h6 with ⟨hp, hsc⟩ | hsp
          · exact Or.inl ⟨hp, by simpa [startsCapB] using hsc⟩
          · exact Or.inr hsp
    | cap m =>
      cases ts with
      | cons t2 ts2 => exact absurd hok (by simp [okPat])
      | nil =>
        simp only [matchToks, List.span_eq_take_drop] at h
        by_cases hlen : max m 1 ≤ (cs.takeWhile isSpLetter).length
        · rw [if_pos hlen] at h
          have hp := Option.some_inj.mp h
          have hw : w = cs.takeWhile isSpLetter := (congrArg Prod.fst hp).symm
          have hr : rest = cs.dropWhile isSpLetter := (congrArg Prod.snd hp).symm
          subst hw
          subst hr
          refine ⟨[], by simp [List.takeWhile_append_dropWhile], ?_,
            fun c hc => List.mem_takeWhile_imp hc,
            fun x hx => head_dropWhile_not _ _ _ hx,
            Or.inl ⟨rfl, rfl⟩⟩
          intro hnil
          rw [hnil] at hlen
          simp at hlen
        · rw [if_neg hlen] at h
          cases h
    | capUntil c => exact absurd hok (by simp [okPat])
    | capUser => exact absurd hok (by simp [okPat])

theorem mem_of_headq {α} {l : List α} {x : α} (h : l.head? = some x) : x ∈ l := by
  cases l with
  | nil => cases h
  | cons a l2 =>
    obtain rfl := Option.some_inj.mp h
    exact List.mem_cons_self _ _

theorem findAllCapsAux_spec (pat : List PatTok) (hok : okPat pat = true)
    (hnc : startsCapB pat = false) :
    ∀ (fuel : Nat) (cs w : List Char), w ∈ findAllCapsAux pat fuel cs →
      ∃ a x b, cs = (a ++ [x]) ++ w ++ b ∧ isPySpace x = true ∧ w ≠ [] ∧
        (∀ c ∈ w, isSpLetter c = true) ∧ (∀ y, b.head? = some y → isSpLetter y = false) := by
  intro fuel
  induction fuel with
  | zero => intro cs w h; exact absurd h (List.not_mem_nil w)
  | succ n ih =>
    intro cs w h
    simp only [findAllCapsAux] at h
    rcases hm : matchToks pat cs with _ | ⟨w0, rest0⟩ <;> simp only [hm] at h
    · cases cs with
      | nil => exact absurd h (List.not_mem_nil w)
      | cons c cs2 =>
        obtain ⟨a, x, b, heq, hx, hwne, hlet, hb⟩ := ih cs2 w h
        exact ⟨c :: a, x, b, by rw [heq]; rfl, hx, hwne, hlet, hb⟩
    · obtain ⟨pre, heq, hw0, hlet0, hrest0, hdisj⟩ := matchToks_spec pat cs w0 rest0 hok hm
      rcases List.mem_cons.mp h with rfl | h2
      · rcases hdisj with ⟨_, hsc⟩ | ⟨pre0, x, rfl, hx⟩
        · rw [hsc] at hnc
          cases hnc
        · exact ⟨pre0, x, rest0, heq, hx, hw0, hlet0, hrest0⟩
      · obtain ⟨a, x, b, heq2, hx, hwne, hlet, hb⟩ := ih rest0 w h2
        refine ⟨pre ++ w0 ++ a, x, b, ?_, hx, hwne, hlet, hb⟩
        rw [heq, heq2]
        simp [List.append_assoc]

theorem splitRunsGo_shift (p : Char → Bool) (b : List Char) :
    ∀ (t acc : List Char), (∀ c ∈ t, p c = true) →
      splitRunsGo p acc (t ++ b) = splitRunsGo p (t.reverse ++ acc) b := by
  intro t
  induction t with
  | nil => intro acc _; simp
  | cons c t ih =>
    intro acc hall
    have hc : p c = true := hall c (List.mem_cons_self _ _)
    rw [List.cons_append]
    show (if p c then splitRunsGo p (c :: acc) (t ++ b)
          else if acc.isEmpty then splitRunsGo p [] (t ++ b)
          else acc.reverse :: splitRunsGo p [] (t ++ b)) = _
    rw [if_pos hc, ih (c :: acc) (fun d hd => hall d (List.mem_cons_of_mem _ hd))]
    simp [List.append_assoc]

theorem splitRunsGo_self_mem (p : Char → Bool) (t b : List Char)
    (htne : t ≠ []) (hall : ∀ c ∈ t, p c = true)
    (hb : ∀ x, b.head? = some x → p x = false) :
    t ∈ splitRunsGo p [] (t ++ b) := by
  rw [splitRunsGo_shift p b t [] hall, List.append_nil]
  have hrev : t.reverse.isEmpty = false := by
    rw [Bool.eq_false_iff]
    intro h
    exact htne (List.reverse_eq_nil_iff.mp (List.isEmpty_iff.mp h))
  cases b with
  | nil =>
    show t ∈ (if t.reverse.isEmpty then [] else [t.reverse.reverse])
    rw [hrev]
    simp
  | cons x b2 =>
    have hx : p x = false := hb x rfl
    show t ∈ (if p x then splitRunsGo p (x :: t.reverse) b2
              else if t.reverse.isEmpty then splitRunsGo p [] b2
              else t.reverse.reverse :: splitRunsGo p [] b2)
    rw [if_neg (by simp [hx]), hrev]
    simp

theorem splitRuns_mem_of_decomp (p : Char → Bool) (t b : List Char)
    (htne : t ≠ []) (hall : ∀ c ∈ t, p c = true)
    (hb : ∀ x, b.head? = some x → p x = false) :
    ∀ (a acc : List Char),
      ((a = [] ∧ acc = []) ∨ (∃ a0 y, a = a0 ++ [y] ∧ p y = false)) →
      t ∈ splitRunsGo p acc (a ++ (t ++ b)) := by
  intro a
  induction a with
  | nil =>
    intro acc hcond
    rcases hcond with ⟨_, rfl⟩ | ⟨a0, y, ha, _⟩
    · exact splitRunsGo_self_mem p t b htne hall hb
    · exact absurd ha (by simp)
  | cons c a ih =>
    intro acc hcond
    have hcond2 : ∃ a0 y, c :: a = a0 ++ [y] ∧ p y = false := by
      rcases hcond with ⟨h0, _⟩ | h0
      · cases h0
      · exact h0
    obtain ⟨a0, y, ha, hy⟩ := hcond2
    rw [List.cons_append]
    show t ∈ (if p c then splitRunsGo p (c :: acc) (a ++ (t ++ b))
              else if acc.isEmpty then splitRunsGo p [] (a ++ (t ++ b))
              else acc.reverse :: splitRunsGo p [] (a ++ (t ++ b)))
    by_cases hc : p c = true
    · rw [if_pos hc]
      apply ih (c :: acc)
      right
      cases a0 with
      | nil =>
        exfalso
        injection ha with h1 h2
        rw [h1] at hc
        rw [hc] at hy
        cases hy
      | cons c0 a0x =>
        rw [List.cons_append] at ha
        injection ha with h1 h2
        exact ⟨a0x, y, h2, hy⟩
    · rw [if_neg hc]
      have hnext : t ∈ splitRunsGo p [] (a ++ (t ++ b)) := by
        apply ih []
        cases a with
        | nil => exact Or.inl ⟨rfl, rfl⟩
        | cons c1 a1 =>
          right
          cases a0 with
          | nil => exact absurd ha (by simp)
          | cons c0 a0x =>
            rw [List.cons_append] at ha
            injection ha with h1 h2
            exact ⟨a0x, y, h2, hy⟩
      by_cases hacc : acc.isEmpty
      · rw [if_pos hacc]
        exact hnext
      · rw [if_neg hacc]
        exact List.mem_cons_of_mem _ hnext

theorem splitRuns_mem (p : Char → Bool) (a : List Char) (y : Char) (t b : List Char)
    (hy : p y = false) (htne : t ≠ []) (hall : ∀ c ∈ t, p c = true)
    (hb : ∀ x, b.head? = some x → p x = false) :
    t ∈ splitRuns p ((a ++ [y]) ++ t ++ b) := by
  unfold splitRuns
  have hmain := splitRuns_mem_of_decomp p t b htne hall hb (a ++ [y]) []
    (Or.inr ⟨a, y, rfl, hy⟩)
  simpa [List.append_assoc] using hmain

theorem spLetter_isWordChar : ∀ c, isSpLetter c = true → isWordChar c = true := by
  have hall : spLetters.all isWordChar = true := by decide
  intro c hc
  have hm : c ∈ spLetters := List.elem_iff.mp (by simpa [isSpLetter, List.contains] using hc)
  exact List.all_eq_true.mp hall c hm

theorem spLetter_not_space : ∀ c, isSpLetter c = true → isPySpace c = false := by
  have hall : spLetters.all (fun c => !isPySpace c) = true := by decide
  intro c hc
  have hm : c ∈ spLetters := List.elem_iff.mp (by simpa [isSpLetter, List.contains] using hc)
  simpa using List.all_eq_true.mp hall c hm

theorem low_spLetter : ∀ c, isLowSpLetter c = true → isSpLetter c = true := by
  have hall : lowSpLetters.all isSpLetter = true := by decide
  intro c hc
  have hm : c ∈ lowSpLetters := List.elem_iff.mp (by simpa [isLowSpLetter, List.contains] using hc)
  exact List.all_eq_true.mp hall c hm

theorem pySpace_not_word : ∀ c, isPySpace c = true → isWordChar c = false := by
  intro c hc
  simp only [isPySpace, Bool.or_eq_true, decide_eq_true_eq] at hc
  rcases hc with ((((h | h) | h) | h) | h) | h <;> subst h <;> decide

set_option maxRecDepth 40000 in
theorem blacklist_chars : ∀ w ∈ spanishMeaninglessWords,
    ∀ c ∈ w.toList, (isLowSpLetter c || (c == ' ')) = true := by
  decide

set_option maxRecDepth 40000 in
theorem blacklist_important_disjoint :
    ∀ w ∈ spanishMeaninglessWords, importantTermsEWRF.contains w = false := by
  decide

theorem dropWhile_eq_self_of_head {α} (p : α → Bool) (l : List α)
    (h : ∀ x, l.head? = some x → p x = false) : l.dropWhile p = l := by
  cases l with
  | nil => rfl
  | cons a l2 =>
    have ha : p a = false := h a rfl
    rw [List.dropWhile_cons, if_neg (by simp [ha])]

theorem pyStrip_of_letters (w : List Char) (h : ∀ c ∈ w, isSpLetter c = true) :
    pyStrip w = w := by
  unfold pyStrip
  have h1 : ∀ x, w.head? = some x → isPySpace x = false :=
    fun x hx => spLetter_not_space x (h x (mem_of_headq hx))
  rw [dropWhile_eq_self_of_head _ _ h1]
  have h2 : ∀ x, w.reverse.head? = some x → isPySpace x = false :=
    fun x hx => spLetter_not_space x (h x (List.mem_reverse.mp (mem_of_headq hx)))
  rw [dropWhile_eq_self_of_head _ _ h2, List.reverse_reverse]

theorem capture_in_blacklist (ql : List Char)
    (hyp : ∀ t ∈ splitRuns isWordChar ql, t.asString ∈ spanishMeaninglessWords)
    (pat : List PatTok) (hok : okPat pat = true) (hnc : startsCapB pat = false)
    (w : List Char) (hw : w ∈ findAllCaps pat ql) :
    w.asString ∈ spanishMeaninglessWords ∧ ∀ c ∈ w, isSpLetter c = true := by
  obtain ⟨a, x, b, heq, hx, hwne, hwlet, hbhead⟩ :=
    findAllCapsAux_spec pat hok hnc _ ql w hw
  obtain ⟨ext, b2, hbsplit, hextall, hb2head⟩ :
      ∃ ext b2, b = ext ++ b2 ∧ (∀ c ∈ ext, isWordChar c = true) ∧
        (∀ y, b2.head? = some y → isWordChar y = false) :=
    ⟨b.takeWhile isWordChar, b.dropWhile isWordChar,
     (List.takeWhile_append_dropWhile ..).symm,
     fun c hc => List.mem_takeWhile_imp hc,
     fun y hy => head_dropWhile_not _ _ _ hy⟩
  have htw : ∀ c ∈ w ++ ext, isWordChar c = true := by
    intro c hc
    rcases List.mem_append.mp hc with hcw | hce
    · exact spLetter_isWordChar c (hwlet c hcw)
    · exact hextall c hce
  have htne : w ++ ext ≠ [] := by
    intro h0
    exact hwne (List.append_eq_nil.mp h0).1
  have hql2 : ql = (a ++ [x]) ++ (w ++ ext) ++ b2 := by
    rw [heq, hbsplit]
    simp [List.append_assoc]
  have hrun : (w ++ ext) ∈ splitRuns isWordChar ql := by
    rw [hql2]
    exact splitRuns_mem isWordChar a x (w ++ ext) b2 (pySpace_not_word x hx)
      htne htw hb2head
  have hbl := hyp _ hrun
  have hlowsp : ∀ c ∈ w ++ ext, isLowSpLetter c = true := by
    intro c hc
    have h1 : isLowSpLetter c = true ∨ (c == ' ') = true := by
      simpa using blacklist_chars _ hbl c hc
    rcases h1 with h | h
    · exact h
    · exfalso
      have hcw := htw c hc
      have hsp : c = ' ' := by simpa using h
      rw [hsp] at hcw
      exact absurd hcw (by decide)
  have hextnil : ext = [] := by
    cases hext2 : ext with
    | nil => rfl
    | cons e ext2 =>
      exfalso
      have hbe : b.head? = some e := by
        rw [hbsplit, hext2]
        rfl
      have h1 : isSpLetter e = false := hbhead e hbe
      have h2 : isLowSpLetter e = true := by
        apply hlowsp
        rw [hext2]
        exact List.mem_append_right w (List.mem_cons_self _ _)
      rw [low_spLetter e h2] at h1
      cases h1
  rw [hextnil, List.append_nil] at hbl
  exact ⟨hbl, hwlet⟩

theorem firstValidCapture_none (ql : String)
    (hyp : ∀ t ∈ splitRuns isWordChar ql.toList, t.asString ∈ spanishMeaninglessWords) :
    ∀ pats : List (List PatTok),
      (∀ p ∈ pats, okPat p = true ∧ startsCapB p = false) →
      firstValidCapture pats ql = none := by
  intro pats
  induction pats with
  | nil => intro _; rfl
  | cons p ps ih =>
    intro hall
    obtain ⟨hok, hnc⟩ := hall p (List.mem_cons_self _ _)
    have hfind : ((findAllCaps p ql.toList).map
        (fun w => (pyStrip w).asString)).find? validCapture = none := by
      rw [List.find?_eq_none]
      intro y hy
      obtain ⟨w, hw, hyw⟩ := List.mem_map.mp hy
      obtain ⟨hbl, hlet⟩ := capture_in_blacklist ql.toList hyp p hok hnc w hw
      rw [← hyw, pyStrip_of_letters w hlet]
      intro hvalid
      simp [validCapture] at hvalid
      exact hvalid.1.2 hbl
    simp only [firstValidCapture, hfind]
    exact ih (fun p2 h2 => hall p2 (List.mem_cons_of_mem _ h2))

theorem wordTokens_blacklist (ql : String)
    (hyp : ∀ t ∈ splitRuns isWordChar ql.toList, t.asString ∈ spanishMeaninglessWords) :
    ∀ w ∈ wordTokens ql, w ∈ spanishMeaninglessWords := by
  intro w hw
  unfold wordTokens at hw
  obtain ⟨run, hrun, hif⟩ := List.mem_filterMap.mp hw
  by_cases hall : run.all isSpLetter = true
  · rw [if_pos hall] at hif
    obtain rfl := Option.some_inj.mp hif
    exact hyp run hrun
  · rw [if_neg hall] at hif
    cases hif

/-- C9: stopword-only queries yield null.  If every token of the
lowercased query (every maximal word-character run, the denotation of
`\b...\b` tokens) belongs to the extractor's stopword/article blacklist
`spanish_meaningless_words`, then `extract_word_with_regex_fallback`
returns `None`: no stopword survives the curated-term scan (STEP 1), the
contextual regex cascade (STEP 2) or the final token sweep (STEP 3). -/
theorem stopword_only_queries_yield_none (q : String)
    (hyp : ∀ t ∈ wordRuns (pyLower q), t ∈ spanishMeaninglessWords) :
    extract_word_with_regex_fallback q = none := by
  have hyp2 : ∀ t ∈ splitRuns isWordChar (pyLower q).toList,
      t.asString ∈ spanishMeaninglessWords := by
    intro t ht
    exact hyp t.asString (List.mem_map_of_mem _ ht)
  have h1 : (wordTokens (pyLower q)).find?
      (fun w => importantTermsEWRF.contains w) = none := by
    rw [List.find?_eq_none]
    intro x hx
    have hbl := wordTokens_blacklist _ hyp2 x hx
    intro hc
    have hc2 : importantTermsEWRF.contains x = true := hc
    rw [blacklist_important_disjoint x hbl] at hc2
    cases hc2
  have h2 : firstValidCapture ewrfPatterns (pyLower q) = none := by
    apply firstValidCapture_none _ hyp2
    decide
  have h3 : (wordTokens (pyLower q)).find? (fun w =>
      !spanishMeaninglessWords.contains w && decide (3 < w.length) &&
        !isDigitStr w) = none := by
    rw [List.find?_eq_none]
    intro x hx
    have hbl := wordTokens_blacklist _ hyp2 x hx
    intro hc
    have hc2 : (!spanishMeaninglessWords.contains x && decide (3 < x.length) &&
        !isDigitStr x) = true := hc
    rw [contains_mem.mpr hbl] at hc2
    simp at hc2
  unfold extract_word_with_regex_fallback
  simp only [h1, h2, h3]

theorem stopword_only_queries_yield_none_witness :
    (∀ t ∈ wordRuns (pyLower "de la el que"), t ∈ spanishMeaninglessWords) ∧
      extract_word_with_regex_fallback "de la el que" = none :=
  ⟨by decide, stopword_only_queries_yield_none "de la el que" (by decide)⟩
